import Mathlib

/-!
Verification of the survey response-collection and statistics pipeline of the
customer-portal repository, against its natural-language specification.

The development shallowly embeds the relevant TypeScript code:
  * `validateAnswers`, `handleSubmit`            (components/surveys/SurveyResponse.tsx)
  * `submitSurveyResponse`, `checkSurveyResponseByEmail`, `getSurveyStatistics`
                                                  (lib/supabase.ts)
  * `getResponseSummary`, `processMultipleChoiceData`, `getTextResponses`,
    the number-statistics display, `generateCSV` (components/surveys/SurveyStats.tsx)
  * `handleVerifyOTP` in both one-time-code gates
                                                  (EmailVerificationFlow.tsx, EmailVerification.tsx)

Modelling conventions, used throughout:
  * JavaScript objects used as string-keyed dictionaries become association
    lists with object semantics (`objGet` / `objSet`: update-in-place on an
    existing key, append otherwise — preserving JS insertion/enumeration order).
  * The dynamically typed `answer_value` field becomes the inductive `JsValue`.
  * Timestamps (`created_at`) are modelled as epoch milliseconds (`Int`);
    `parseISO`/`new Date(...)` become the identity, `format(..., 'yyyy-MM-dd')`
    becomes the UTC day index (floor division by 86400000), `subDays now 1`
    becomes `now - 86400000`, `isAfter` becomes `>`.  The display-only
    `displayDate`/`formatDate` strings are locale dependent and are either
    dropped (daily chart label) or passed in as a function parameter (CSV).
  * JavaScript numbers are modelled as rationals; `Math.min`/`Math.max` over a
    possibly-empty spread use `JsNum`, which has the infinities those
    built-ins return on an empty argument list.  Floating-point rounding is
    outside the model; none of the verified properties depend on it.
-/

namespace CustomerPortal

/-! ## Data model (types.ts) -/

/-- Question types of the active app variant
(`'text' | 'textarea' | 'number' | 'date' | 'radio' | 'checkbox'`). -/
inductive QuestionType where
  | text
  | textarea
  | number
  | date
  | radio
  | checkbox
deriving DecidableEq, Repr

/-- Model of a dynamically-typed JS value (the `answer_value : any` field). -/
inductive JsValue where
  | vNull : JsValue
  | vBool : Bool → JsValue
  | vNum : Rat → JsValue
  | vStr : String → JsValue
  | vArr : List JsValue → JsValue
  | vObj : List (String × JsValue) → JsValue

/-- `SurveyQuestion` record (id, text, type, options, required flag). -/
structure SurveyQuestion where
  id : String
  question_text : String
  question_type : QuestionType
  options : List String
  required : Bool
deriving DecidableEq

/-- One in-progress answer held in the `answers` component state of
`SurveyResponse.tsx` (keyed there by question id). -/
structure AnswerData where
  answer_text : String
  answer_value : JsValue

/-- A persisted answer row as returned by `fetchSurveyResponses`
(`SurveyAnswer` in types.ts).  `created_at` is modelled as epoch ms. -/
structure SurveyAnswer where
  question_id : String
  survey_id : String
  email : String
  answer_text : String
  answer_value : JsValue
  created_at : Int

/-- A survey with its question list (only the fields the verified logic reads). -/
structure Survey where
  id : String
  title : String
  questions : List SurveyQuestion
deriving DecidableEq

/-! ## JS object helpers

A JS object used as a dictionary: an association list where assignment
updates an existing key in place and otherwise appends, matching JS
property-insertion order for `Object.entries`/`Object.keys`. -/

/-- Property read `o[k]` (`undefined` becomes `none`).  Keys are strings in
JS; the type is generic so that the calendar-day map (whose `yyyy-MM-dd` keys
are modelled by day indices) can reuse it. -/
def objGet [DecidableEq κ] (o : List (κ × α)) (k : κ) : Option α :=
  match o with
  | [] => none
  | (k', v') :: rest => if k' = k then some v' else objGet rest k

/-- Property write `o[k] = v` with JS object semantics. -/
def objSet [DecidableEq κ] (o : List (κ × α)) (k : κ) (v : α) : List (κ × α) :=
  match o with
  | [] => [(k, v)]
  | (k', v') :: rest =>
    if k' = k then (k', v) :: rest else (k', v') :: objSet rest k v

/-- Iteration of a JS `Set` built by insertion: keep each element's first
occurrence, skipping elements already seen. -/
def dedupFirstAux (seen : List String) : List String → List String
  | [] => []
  | x :: xs =>
    if x ∈ seen then dedupFirstAux seen xs
    else x :: dedupFirstAux (x :: seen) xs

/-- `[...new Set(l)]`: deduplicate keeping the first occurrence of each
element, in order. -/
def dedupFirst (l : List String) : List String :=
  dedupFirstAux [] l

/-! ## Answer validation (SurveyResponse.tsx, `validateAnswers`) -/

/-- Model of JavaScript `String.prototype.trim` (drop leading and trailing
whitespace; the model uses `Char.isWhitespace` as the whitespace class). -/
def jsTrim (s : String) : String :=
  String.mk (((s.toList.dropWhile Char.isWhitespace).reverse.dropWhile
    Char.isWhitespace).reverse)

instance : ∀ (v : JsValue), Decidable (∀ l, v = JsValue.vArr l → l = []) := by
  intro v
  cases v with
  | vArr l =>
    cases l with
    | nil => exact isTrue (by intro l h; cases h; rfl)
    | cons x xs => exact isFalse (by intro h; cases h (x :: xs) rfl)
  | vNull => exact isTrue (by intro l h; cases h)
  | vBool b => exact isTrue (by intro l h; cases h)
  | vNum q => exact isTrue (by intro l h; cases h)
  | vStr s => exact isTrue (by intro l h; cases h)
  | vObj o => exact isTrue (by intro l h; cases h)

/-- The body of the `survey.questions?.forEach` callback in `validateAnswers`:
the validation error recorded for one question, if any.  Source:

    if (question.required) {
      const answer = answers[question.id];
      if (!answer || !answer.answer_text.trim()) {
        errors[question.id] = 'This question requires an answer';
      } else if (question.question_type === 'checkbox' &&
                (!Array.isArray(answer.answer_value) || answer.answer_value.length === 0)) {
        errors[question.id] = 'Please select at least one option';
      }
    }
-/
def questionError (answers : String → Option AnswerData) (q : SurveyQuestion) :
    Option String :=
  if q.required then
    match answers q.id with
    | none => some "This question requires an answer"
    | some a =>
      if jsTrim a.answer_text = "" then
        some "This question requires an answer"
      else if q.question_type = QuestionType.checkbox ∧
          (∀ l, a.answer_value = JsValue.vArr l → l = []) then
        some "Please select at least one option"
      else
        none
  else
    none

/-- `validateAnswers` from SurveyResponse.tsx: builds the `errors` object by
iterating over the survey's questions. -/
def validateAnswers (questions : List SurveyQuestion)
    (answers : String → Option AnswerData) : List (String × String) :=
  questions.foldl
    (fun errs q =>
      match questionError answers q with
      | some msg => objSet errs q.id msg
      | none => errs)
    []

/-! ## Submission flow (lib/supabase.ts and SurveyResponse.tsx) -/

/-- A row of the `answers` table as inserted by `submitSurveyResponse`
(`formattedAnswers` in `handleSubmit`; the server-side `created_at` column is
not part of the inserted record). -/
structure SubmittedAnswer where
  question_id : String
  email : String
  survey_id : String
  answer_text : String
  answer_value : JsValue

/-- `checkSurveyResponseByEmail` from lib/supabase.ts: select rows of
`answers` with matching `survey_id` and `email`, `limit(1)`, and report
whether the result set is non-empty.  The persistence collaborator is
modelled as the list of rows of the `answers` table. -/
def checkSurveyResponseByEmail (db : List SubmittedAnswer) (surveyId email : String) :
    Bool :=
  (((db.filter (fun r => r.survey_id = surveyId ∧ r.email = email)).take 1).length) > 0

/-- `submitSurveyResponse` from lib/supabase.ts: throws `'No answers to
submit'` on an empty answer array, otherwise inserts the rows.  The `Except`
models the JS exception; `ok` carries the table after the insert. -/
def submitSurveyResponse (db : List SubmittedAnswer) (answers : List SubmittedAnswer) :
    Except String (List SubmittedAnswer) :=
  if answers.length = 0 then
    Except.error "No answers to submit"
  else
    Except.ok (db ++ answers)

/-- Outcome of one submission attempt in `SurveyResponse.tsx`.
`blockedAlreadySubmitted` is the `alreadySubmitted` branch, which renders the
"You've already responded" alert whose single button ("Use a different email
address") resets `verifiedEmail`, i.e. re-enters the verification gate. -/
inductive SubmitOutcome where
  | notVerified
  | blockedAlreadySubmitted
  | missingAnswers
  | submitError : String → SubmitOutcome
  | submitted
deriving DecidableEq, Repr

/-- One sequential submission attempt: the `useEffect` pre-check that sets
`alreadySubmitted` from `checkSurveyResponseByEmail`, followed by
`handleSubmit` (email-verified guard, `alreadySubmitted` guard,
`validateAnswers` guard, `formattedAnswers` construction,
`submitSurveyResponse`).  Returns the outcome together with the state of the
`answers` table afterwards.  `answers` is `Object.entries` of the component's
answer state (unique keys, insertion order). -/
def attemptSubmission (db : List SubmittedAnswer) (survey : Survey)
    (verifiedEmail : Option String) (answers : List (String × AnswerData)) :
    SubmitOutcome × List SubmittedAnswer :=
  match verifiedEmail with
  | none => (SubmitOutcome.notVerified, db)
  | some email =>
    if checkSurveyResponseByEmail db survey.id email then
      (SubmitOutcome.blockedAlreadySubmitted, db)
    else if (validateAnswers survey.questions (fun k => (answers.lookup k))).length ≠ 0 then
      (SubmitOutcome.missingAnswers, db)
    else
      let formattedAnswers := answers.map (fun p =>
        { question_id := p.1
          email := email
          survey_id := survey.id
          answer_text := p.2.answer_text
          answer_value := p.2.answer_value : SubmittedAnswer })
      match submitSurveyResponse db formattedAnswers with
      | Except.error msg => (SubmitOutcome.submitError msg, db)
      | Except.ok db2 => (SubmitOutcome.submitted, db2)

/-! ## One-time-code verification gates -/

/-- The code-input `onChange` handler shared by both gates:
`e.target.value.replace(/[^0-9]/g, '').slice(0, 6)` — so the component's
`verificationCode` state is always at most 6 digits. -/
def sanitizeCodeInput (s : String) : String :=
  String.mk ((s.toList.filter Char.isDigit).take 6)

/-- Outcome of a verify-code attempt.  `localError` means the attempt was
rejected before the identity collaborator was contacted; `verifySuccess` and
`verifyRejected` both mean `supabase.auth.verifyOtp` was invoked, and only
`verifySuccess` reaches the `onVerificationSuccess` caller callback. -/
inductive VerifyOutcome where
  | localError : String → VerifyOutcome
  | verifySuccess : String → VerifyOutcome
  | verifyRejected
deriving DecidableEq, Repr

/-- `handleVerifyOTP` from EmailVerificationFlow.tsx (the gate used by
`SurveyResponse.tsx`): empty-code and wrong-length codes error locally,
otherwise `verifyOtp` is called; `verifier` models the identity
collaborator's accept/reject decision for (email, code). -/
def handleVerifyOTPFlow (verifier : String → String → Bool)
    (email code : String) : VerifyOutcome :=
  if code = "" then
    VerifyOutcome.localError "Please enter the verification code"
  else if code.length ≠ 6 then
    VerifyOutcome.localError "Please enter all 6 digits of the verification code"
  else if verifier email code then
    VerifyOutcome.verifySuccess email
  else
    VerifyOutcome.verifyRejected

/-- `handleVerifyOTP` from EmailVerification.tsx: only the empty-code check
runs locally; any non-empty code is sent to `verifyOtp`. -/
def handleVerifyOTPSimple (verifier : String → String → Bool)
    (email code : String) : VerifyOutcome :=
  if code = "" then
    VerifyOutcome.localError "Please enter the verification code"
  else if verifier email code then
    VerifyOutcome.verifySuccess email
  else
    VerifyOutcome.verifyRejected

/-! ## JSON.parse model

The checkbox tally calls `JSON.parse` on `answer_value` when it is not an
array.  The parser below follows the JSON grammar (values: object, array,
string, number, true/false/null; string escapes including `\uXXXX`).  Numbers
become rationals. -/

/-- JSON insignificant whitespace. -/
def jsonWs (c : Char) : Bool :=
  c = ' ' || c = '\t' || c = '\n' || c = '\r'

/-- Value of a hex digit. -/
def hexVal (c : Char) : Option Nat :=
  if '0' ≤ c ∧ c ≤ '9' then some (c.toNat - 48)
  else if 'a' ≤ c ∧ c ≤ 'f' then some (c.toNat - 87)
  else if 'A' ≤ c ∧ c ≤ 'F' then some (c.toNat - 55)
  else none

/-- Decoding of a single-character JSON escape (`\uXXXX` is handled
separately). -/
def escChar (e : Char) : Option Char :=
  if e = '"' then some '"'
  else if e = '\\' then some '\\'
  else if e = '/' then some '/'
  else if e = 'b' then some '\x08'
  else if e = 'f' then some '\x0c'
  else if e = 'n' then some '\n'
  else if e = 'r' then some '\r'
  else if e = 't' then some '\t'
  else none

/-- Parse the body of a JSON string (after the opening quote), returning the
decoded characters and the input after the closing quote. -/
def parseJsonStringAux : List Char → Option (List Char × List Char)
  | [] => none
  | '"' :: rest => some ([], rest)
  | '\\' :: 'u' :: h1 :: h2 :: h3 :: h4 :: rest =>
    (match hexVal h1, hexVal h2, hexVal h3, hexVal h4 with
    | some a, some b, some c2, some d =>
      match parseJsonStringAux rest with
      | some (cs, r) => some (Char.ofNat (((a * 16 + b) * 16 + c2) * 16 + d) :: cs, r)
      | none => none
    | _, _, _, _ => none)
  | '\\' :: e :: rest =>
    (match escChar e with
    | some ch =>
      match parseJsonStringAux rest with
      | some (cs, r) => some (ch :: cs, r)
      | none => none
    | none => none)
  | c :: rest =>
    if c.toNat < 32 then none
    else
      match parseJsonStringAux rest with
      | some (cs, r) => some (c :: cs, r)
      | none => none

/-- Digits to a natural number. -/
def digitsToNat (ds : List Char) : Nat :=
  ds.foldl (fun n c => n * 10 + (c.toNat - 48)) 0

/-- Parse a JSON number (`-? (0 | [1-9][0-9]*) frac? exp?`) as a rational. -/
def parseJsonNumber (l : List Char) : Option (Rat × List Char) :=
  let (neg, l1) := match l with
    | '-' :: rest => (true, rest)
    | _ => (false, l)
  let intDigits : Option (List Char × List Char) := match l1 with
    | '0' :: rest => some (['0'], rest)
    | c :: rest =>
      if c.isDigit then
        some (c :: rest.takeWhile Char.isDigit, rest.dropWhile Char.isDigit)
      else none
    | [] => none
  match intDigits with
  | none => none
  | some (ip, l2) =>
    let fracPart : Option (List Char × List Char) := match l2 with
      | '.' :: rest =>
        let ds := rest.takeWhile Char.isDigit
        if ds.isEmpty then none else some (ds, rest.dropWhile Char.isDigit)
      | _ => some ([], l2)
    match fracPart with
    | none => none
    | some (fp, l3) =>
      let expPart : Option (Bool × List Char × List Char) := match l3 with
        | c :: rest =>
          if c = 'e' ∨ c = 'E' then
            let (eneg, rest2) := match rest with
              | '-' :: r => (true, r)
              | '+' :: r => (false, r)
              | _ => (false, rest)
            let ds := rest2.takeWhile Char.isDigit
            if ds.isEmpty then none
            else some (eneg, ds, rest2.dropWhile Char.isDigit)
          else some (false, [], l3)
        | [] => some (false, [], l3)
      match expPart with
      | none => none
      | some (eneg, ed, l4) =>
        let mantissa : Rat :=
          (digitsToNat (ip ++ fp) : Rat) / ((10 : Rat) ^ fp.length)
        let scaled : Rat :=
          if eneg then mantissa / ((10 : Rat) ^ digitsToNat ed)
          else mantissa * ((10 : Rat) ^ digitsToNat ed)
        some (if neg then -scaled else scaled, l4)

mutual

/-- Parse a JSON value; `fuel` bounds recursion depth. -/
def parseJsonValue : Nat → List Char → Option (JsValue × List Char)
  | 0, _ => none
  | Nat.succ fuel, l =>
    match l.dropWhile jsonWs with
    | 't' :: 'r' :: 'u' :: 'e' :: rest => some (JsValue.vBool true, rest)
    | 'f' :: 'a' :: 'l' :: 's' :: 'e' :: rest => some (JsValue.vBool false, rest)
    | 'n' :: 'u' :: 'l' :: 'l' :: rest => some (JsValue.vNull, rest)
    | '"' :: rest =>
      match parseJsonStringAux rest with
      | some (cs, rest2) => some (JsValue.vStr (String.mk cs), rest2)
      | none => none
    | '[' :: rest =>
      match rest.dropWhile jsonWs with
      | ']' :: rest2 => some (JsValue.vArr [], rest2)
      | _ =>
        match parseJsonElems fuel rest with
        | some (vs, rest2) => some (JsValue.vArr vs, rest2)
        | none => none
    | '\x7b' :: rest =>
      match rest.dropWhile jsonWs with
      | '\x7d' :: rest2 => some (JsValue.vObj [], rest2)
      | _ =>
        match parseJsonMembers fuel rest with
        | some (ms, rest2) => some (JsValue.vObj ms, rest2)
        | none => none
    | rest =>
      match parseJsonNumber rest with
      | some (q, rest2) => some (JsValue.vNum q, rest2)
      | none => none

/-- Parse the elements of a JSON array, up to and including `]`. -/
def parseJsonElems : Nat → List Char → Option (List JsValue × List Char)
  | 0, _ => none
  | Nat.succ fuel, l =>
    match parseJsonValue fuel l with
    | none => none
    | some (v, rest) =>
      match rest.dropWhile jsonWs with
      | ',' :: rest2 =>
        match parseJsonElems fuel rest2 with
        | some (vs, rest3) => some (v :: vs, rest3)
        | none => none
      | ']' :: rest2 => some ([v], rest2)
      | _ => none

/-- Parse the members of a JSON object, up to and including the closing brace. -/
def parseJsonMembers : Nat → List Char → Option (List (String × JsValue) × List Char)
  | 0, _ => none
  | Nat.succ fuel, l =>
    match l.dropWhile jsonWs with
    | '"' :: rest =>
      match parseJsonStringAux rest with
      | none => none
      | some (key, rest2) =>
        match rest2.dropWhile jsonWs with
        | ':' :: rest3 =>
          match parseJsonValue fuel rest3 with
          | none => none
          | some (v, rest4) =>
            match rest4.dropWhile jsonWs with
            | ',' :: rest5 =>
              match parseJsonMembers fuel rest5 with
              | some (ms, rest6) => some ((String.mk key, v) :: ms, rest6)
              | none => none
            | '\x7d' :: rest5 => some ([(String.mk key, v)], rest5)
            | _ => none
        | _ => none
    | _ => none

end

/-- `JSON.parse` on a string: parse one value, allow trailing whitespace only. -/
def jsonParse (s : String) : Option JsValue :=
  match parseJsonValue (s.length + 1) s.toList with
  | some (v, rest) => if (rest.dropWhile jsonWs).isEmpty then some v else none
  | none => none

/-! ## JS string coercion and the choice tallies (SurveyStats.tsx) -/

/-- Rendering of a JS number for string coercion.  Integers render exactly as
in JS; non-integral rationals (unreachable in the verified properties, since
JSON array elements that are tallied are strings) use the rational printer. -/
def ratToJsString (q : Rat) : String :=
  if q.den = 1 then toString q.num else toString q

mutual

/-- JS `String(v)` / `ToPropertyKey` coercion (arrays join elements with `,`,
`null` elements rendering as the empty string; objects render as
`[object Object]`). -/
def jsToString : JsValue → String
  | JsValue.vNull => "null"
  | JsValue.vBool true => "true"
  | JsValue.vBool false => "false"
  | JsValue.vNum q => ratToJsString q
  | JsValue.vStr s => s
  | JsValue.vArr l => jsToStringList l
  | JsValue.vObj _ => "[object Object]"

/-- Array elements joined with commas for `String(array)`. -/
def jsToStringList : List JsValue → String
  | [] => ""
  | [JsValue.vNull] => ""
  | [x] => jsToString x
  | JsValue.vNull :: xs => "," ++ jsToStringList xs
  | x :: xs => jsToString x ++ "," ++ jsToStringList xs

end

/-- JS falsiness of an `answer_value` (drives `answer_value || '[]'`). -/
def jsFalsy : JsValue → Bool
  | JsValue.vNull => true
  | JsValue.vBool b => !b
  | JsValue.vNum q => q = 0
  | JsValue.vStr s => s = ""
  | _ => false

/-- The selected options contributed by one checkbox answer row, after the
`try`/`catch` in `processMultipleChoiceData`:

    const selectedOptions = Array.isArray(response.answer_value)
      ? response.answer_value
      : JSON.parse(response.answer_value || '[]');
    selectedOptions.forEach((option) => ...)

An actual array is used directly; otherwise the value (or `'[]'` when falsy)
is JSON-parsed.  A parse failure (`SyntaxError`) or a parse result without
`forEach` (any non-array) throws, is caught, and contributes nothing.
Elements are coerced to property keys by string coercion. -/
def checkboxSelections (v : JsValue) : List String :=
  match v with
  | JsValue.vArr l => l.map jsToString
  | _ =>
    match jsonParse (if jsFalsy v then "[]" else jsToString v) with
    | some (JsValue.vArr l) => l.map jsToString
    | _ => []

/-- `optionCounts[option]++` guarded by `optionCounts[option] !== undefined`. -/
def bumpIfPresent (counts : List (String × Nat)) (k : String) : List (String × Nat) :=
  match objGet counts k with
  | some n => objSet counts k (n + 1)
  | none => counts

/-- Zero-initialisation of the per-option counter object. -/
def initOptionCounts (options : List String) : List (String × Nat) :=
  options.foldl (fun acc o => objSet acc o 0) []

/-- `processMultipleChoiceData` from SurveyStats.tsx: per-option tallies for a
checkbox (multi-choice) or radio (single-choice) question, as the
`Object.entries` list of the `optionCounts` object. -/
def processMultipleChoiceData (q : SurveyQuestion) (responses : List SurveyAnswer) :
    List (String × Nat) :=
  let questionResponses := responses.filter (fun r => r.question_id = q.id)
  if q.question_type = QuestionType.checkbox then
    questionResponses.foldl
      (fun acc r => (checkboxSelections r.answer_value).foldl bumpIfPresent acc)
      (initOptionCounts q.options)
  else
    questionResponses.foldl
      (fun acc r => bumpIfPresent acc r.answer_text)
      (initOptionCounts q.options)

/-! ## Number statistics (SurveyStats.tsx, "Number Statistics" card) -/

/-- A JS number as produced by `Math.min`/`Math.max` over a possibly-empty
spread: finite, `Infinity` (empty `Math.min`), or `-Infinity` (empty
`Math.max`). -/
inductive JsNum where
  | fin : Rat → JsNum
  | inf
  | negInf
deriving DecidableEq, Repr

/-- Model of JavaScript `parseFloat`: skip leading whitespace, optional sign,
longest prefix of the form `digits [. digits] [e/E [sign] digits]`; `none`
models `NaN`.  (The `Infinity` literal accepted by `parseFloat` is not
modelled; the inputs come from `<input type="number">` fields.) -/
def parseFloatJs (s : String) : Option Rat :=
  let l := s.toList.dropWhile Char.isWhitespace
  let (neg, l1) := match l with
    | '-' :: r => (true, r)
    | '+' :: r => (false, r)
    | _ => (false, l)
  let ip := l1.takeWhile Char.isDigit
  let l2 := l1.dropWhile Char.isDigit
  let (fp, l3) := match l2 with
    | '.' :: r => (r.takeWhile Char.isDigit, r.dropWhile Char.isDigit)
    | _ => ([], l2)
  if ip.isEmpty ∧ fp.isEmpty then none
  else
    let mantissa : Rat := (digitsToNat (ip ++ fp) : Rat) / ((10 : Rat) ^ fp.length)
    let expVal : Int := match l3 with
      | c :: r =>
        if c = 'e' ∨ c = 'E' then
          let (eneg, r2) := match r with
            | '-' :: rr => (true, rr)
            | '+' :: rr => (false, rr)
            | _ => (false, r)
          let ed := r2.takeWhile Char.isDigit
          if ed.isEmpty then 0
          else if eneg then -(digitsToNat ed : Int) else (digitsToNat ed : Int)
        else 0
      | [] => 0
    some ((if neg then -mantissa else mantissa) * (10 : Rat) ^ expVal)

/-- `getTextResponses` from SurveyStats.tsx, restricted to the `answer` field
(the number statistics consume only `r.answer`): the `answer_text` of every
response row for the question, in row order. -/
def getTextResponses (q : SurveyQuestion) (responses : List SurveyAnswer) :
    List String :=
  (responses.filter (fun r => r.question_id = q.id)).map (fun r => r.answer_text)

/-- `getTextResponses(question).map(r => parseFloat(r.answer)).filter(n => !isNaN(n))`:
the parseable numeric values of a question's answers. -/
def parsedNumbers (q : SurveyQuestion) (responses : List SurveyAnswer) : List Rat :=
  (getTextResponses q responses).filterMap parseFloatJs

/-- The render guard of the "Number Statistics" card:
`question.question_type === 'number' && getTextResponses(question).length > 0`.
Note the guard counts all responses, not the parseable ones. -/
def numberSummaryShown (q : SurveyQuestion) (responses : List SurveyAnswer) : Bool :=
  q.question_type = QuestionType.number ∧ (getTextResponses q responses).length > 0

/-- The displayed average:
`.reduce((sum, n, _, arr) => sum + n / arr.length, 0)` over the parseable
values (`toFixed(2)` display formatting not modelled). -/
def displayedAverage (q : SurveyQuestion) (responses : List SurveyAnswer) : Rat :=
  let arr := parsedNumbers q responses
  arr.foldl (fun sum n => sum + n / (arr.length : Rat)) 0

/-- One step of `Math.min` over spread arguments. -/
def jsMin2 (m : JsNum) (n : Rat) : JsNum :=
  match m with
  | JsNum.inf => JsNum.fin n
  | JsNum.negInf => JsNum.negInf
  | JsNum.fin a => JsNum.fin (min a n)

/-- `Math.min(...values)`: `Infinity` on the empty spread. -/
def jsMathMin (l : List Rat) : JsNum :=
  l.foldl jsMin2 JsNum.inf

/-- One step of `Math.max` over spread arguments. -/
def jsMax2 (m : JsNum) (n : Rat) : JsNum :=
  match m with
  | JsNum.negInf => JsNum.fin n
  | JsNum.inf => JsNum.inf
  | JsNum.fin a => JsNum.fin (max a n)

/-- `Math.max(...values)`: `-Infinity` on the empty spread. -/
def jsMathMax (l : List Rat) : JsNum :=
  l.foldl jsMax2 JsNum.negInf

/-- The displayed minimum: `Math.min(...parsedNumbers)`. -/
def displayedMin (q : SurveyQuestion) (responses : List SurveyAnswer) : JsNum :=
  jsMathMin (parsedNumbers q responses)

/-- The displayed maximum: `Math.max(...parsedNumbers)`. -/
def displayedMax (q : SurveyQuestion) (responses : List SurveyAnswer) : JsNum :=
  jsMathMax (parsedNumbers q responses)

/-! ## Response summary (SurveyStats.tsx `getResponseSummary`,
lib/supabase.ts `getSurveyStatistics`) -/

/-- `Math.round` on a finite number: round half towards positive infinity. -/
def jsRound (q : Rat) : Int :=
  ⌊q + 1 / 2⌋

/-- Milliseconds per day. -/
def msPerDay : Int := 86400000

/-- `format(parseISO(t), 'yyyy-MM-dd')` modelled as the (UTC) day index of the
epoch-ms timestamp; `localeCompare` ordering of the date strings coincides
with numeric ordering of day indices. -/
def dayIndex (t : Int) : Int :=
  t.fdiv msPerDay

/-- The `questionCounts` reduce inside `getSurveyStatistics`: count of answer
rows per question id, as a JS object. -/
def questionCounts (rows : List SurveyAnswer) : List (String × Nat) :=
  rows.foldl
    (fun acc r =>
      let acc2 := if (objGet acc r.question_id).getD 0 = 0 then
          objSet acc r.question_id 0
        else acc
      objSet acc2 r.question_id ((objGet acc2 r.question_id).getD 0 + 1))
    []

/-- `responses.filter(r => r.email === email).sort((a, b) => b.created_at -
a.created_at)[0]`: the first row attaining the latest `created_at` (JS sort is
stable, so among ties the earliest row is kept). -/
def latestResponseFor (responses : List SurveyAnswer) (email : String) :
    Option SurveyAnswer :=
  (responses.filter (fun r => r.email = email)).foldl
    (fun best r =>
      match best with
      | none => some r
      | some b => if r.created_at > b.created_at then some r else some b)
    none

/-- Stable insertion of a daily entry into an ascending-by-day list (model of
the stable JS `sort((a, b) => a.date.localeCompare(b.date))`). -/
def insertAsc (x : Int × Nat) : List (Int × Nat) → List (Int × Nat)
  | [] => [x]
  | y :: ys => if y.1 ≤ x.1 then y :: insertAsc x ys else x :: y :: ys

/-- Stable ascending sort by day. -/
def sortByDay : List (Int × Nat) → List (Int × Nat)
  | [] => []
  | x :: xs => insertAsc x (sortByDay xs)

/-- The `responsesPerDay` accumulation: a JS object from calendar day to the
`Set` of respondent emails seen that day (the set modelled as a duplicate-free
list in insertion order). -/
def responsesPerDay (responses : List SurveyAnswer) : List (Int × List String) :=
  responses.foldl
    (fun m r =>
      let day := dayIndex r.created_at
      match objGet m day with
      | none => objSet m day [r.email]
      | some emails =>
        objSet m day (if r.email ∈ emails then emails else emails ++ [r.email]))
    []

/-- Result record of `getResponseSummary` (the chart-label `displayDate`, a
locale rendering of the date, is not modelled). -/
structure ResponseSummary where
  totalQuestions : Nat
  totalResponses : Nat
  recentResponses : Nat
  dailyResponseData : List (Int × Nat)
  questionResponseRates : List (String × Nat × Int)
deriving DecidableEq, Repr

/-- `getResponseSummary` from SurveyStats.tsx.  `now` is `new Date()` at
invocation time; `questionStats` is the `stats.questionStats` object fetched
via `getSurveyStatistics`; `responses` is the fetched answer list. -/
def getResponseSummary (now : Int) (survey : Survey)
    (questionStats : List (String × Nat)) (responses : List SurveyAnswer) :
    ResponseSummary :=
  let totalQuestions := survey.questions.length
  let uniqueEmails := dedupFirst (responses.map (fun r => r.email))
  let totalResponses := uniqueEmails.length
  let oneDayAgo := now - msPerDay
  let recentRespondents := uniqueEmails.filter (fun email =>
    match latestResponseFor responses email with
    | some latest => latest.created_at > oneDayAgo
    | none => false)
  let dailyResponseData :=
    sortByDay ((responsesPerDay responses).map (fun p => (p.1, p.2.length)))
  let questionResponseRates := survey.questions.map (fun q =>
    let responseCount := (objGet questionStats q.id).getD 0
    let responseRate : Int :=
      if totalResponses > 0 then
        jsRound ((responseCount : Rat) / (totalResponses : Rat) * 100)
      else 0
    (q.question_text, responseCount, responseRate))
  { totalQuestions := totalQuestions
    totalResponses := totalResponses
    recentResponses := recentRespondents.length
    dailyResponseData := dailyResponseData
    questionResponseRates := questionResponseRates }

/-! ## CSV export (SurveyStats.tsx `generateCSV`) and a standard CSV reader -/

/-- `Array.prototype.join(sep)` on a list of strings. -/
def jsJoin (sep : String) : List String → String
  | [] => ""
  | [x] => x
  | x :: xs => x ++ sep ++ jsJoin sep xs

/-- `answer.replace(/"/g, '""')` at character level. -/
def escapeCsvChars : List Char → List Char
  | [] => []
  | c :: rest =>
    if c = '"' then '"' :: '"' :: escapeCsvChars rest
    else c :: escapeCsvChars rest

/-- The answer-cell escaping in `generateCSV`:
``row.push(`"${answer.replace(/"/g, '""')}"`)``. -/
def csvQuote (s : String) : String :=
  "\"" ++ String.mk (escapeCsvChars s.toList) ++ "\""

/-- One entry of the `respondentMap` in `generateCSV`. -/
structure RespondentRow where
  email : String
  date : String
  answers : List (String × String)

/-- The `respondentMap` accumulation of `generateCSV`: one entry per distinct
`email` (insertion order), holding the date of the respondent's first row and
their answers keyed by question id.  `formatDate` abstracts the
locale-dependent `toLocaleDateString` rendering of `created_at`. -/
def groupRespondents (formatDate : Int → String) (responses : List SurveyAnswer) :
    List (String × RespondentRow) :=
  responses.foldl
    (fun m r =>
      let m2 :=
        if (objGet m r.email).isSome then m
        else objSet m r.email
          { email := r.email, date := formatDate r.created_at, answers := [] }
      match objGet m2 r.email with
      | some resp =>
        objSet m2 r.email
          { resp with answers := objSet resp.answers r.question_id r.answer_text }
      | none => m2)
    []

/-- The lines of the generated CSV: the raw-joined header, then one line per
distinct respondent with raw email and date cells and quote-escaped answer
cells in question order (missing answers render as empty cells). -/
def generateCSVRows (formatDate : Int → String) (survey : Survey)
    (responses : List SurveyAnswer) : List String :=
  let headers := ["Respondent ID", "Date"] ++ survey.questions.map (fun q => q.question_text)
  let dataRows := (groupRespondents formatDate responses).map (fun p =>
    let respondent := p.2
    let row := [respondent.email, respondent.date] ++
      survey.questions.map (fun q => csvQuote ((objGet respondent.answers q.id).getD ""))
    jsJoin "," row)
  jsJoin "," headers :: dataRows

/-- `generateCSV`: the CSV text handed to the `Blob` download
(`rows.join('\n')`). -/
def generateCSV (formatDate : Int → String) (survey : Survey)
    (responses : List SurveyAnswer) : String :=
  jsJoin "\n" (generateCSVRows formatDate survey responses)

/-- Modelled from the spec: the body of a quoted field under "standard CSV
quoting rules" (RFC 4180 with LF record ends): after an opening quote, `""`
decodes to one `"`, a single `"` closes the field, and every other character
(including commas and newlines) is literal.  Returns the decoded body and the
input after the closing quote. -/
def csvReadQuotedBody : List Char → (List Char × List Char)
  | [] => ([], [])
  | c :: rest =>
    if c = '"' then
      match rest with
      | c2 :: rest2 =>
        if c2 = '"' then
          ('"' :: (csvReadQuotedBody rest2).1, (csvReadQuotedBody rest2).2)
        else ([], rest)
      | [] => ([], [])
    else
      (c :: (csvReadQuotedBody rest).1, (csvReadQuotedBody rest).2)

/-- Non-delimiter characters of an unquoted CSV field. -/
def csvPlainChar (c : Char) : Bool :=
  c ≠ ',' ∧ c ≠ '\n'

/-- A string that survives raw (unquoted) CSV embedding: it contains no
comma, double quote, or newline. -/
def csvPlainText (s : String) : Prop :=
  ∀ c ∈ s.toList, c ≠ ',' ∧ c ≠ '"' ∧ c ≠ '\n'

instance (s : String) : Decidable (csvPlainText s) := by
  rw [csvPlainText]
  infer_instance

/-- The relation between a written CSV cell and the value it denotes: either
emitted raw (then the value must be plain) or quote-escaped. -/
def csvCellRel (w v : String) : Prop :=
  (w = v ∧ csvPlainText v) ∨ w = csvQuote v

/-- Modelled from the spec: one field of a standard CSV record — quoted if it
opens with `"`, otherwise the run of characters up to the next comma or
newline (which is left in the remainder). -/
def csvReadField (l : List Char) : String × List Char :=
  match l with
  | c :: rest =>
    if c = '"' then
      (String.mk (csvReadQuotedBody rest).1, (csvReadQuotedBody rest).2)
    else
      (String.mk (l.takeWhile csvPlainChar), l.dropWhile csvPlainChar)
  | [] => ("", [])

theorem csvReadQuotedBody_esc (rest : List Char) :
    csvReadQuotedBody ('"' :: '"' :: rest) =
      ('"' :: (csvReadQuotedBody rest).1, (csvReadQuotedBody rest).2) := rfl

theorem csvReadQuotedBody_close (c : Char) (rest : List Char) (h : c ≠ '"') :
    csvReadQuotedBody ('"' :: c :: rest) = ([], c :: rest) := by
  simp [csvReadQuotedBody, h]

theorem csvReadQuotedBody_other (c : Char) (rest : List Char) (h : c ≠ '"') :
    csvReadQuotedBody (c :: rest) =
      (c :: (csvReadQuotedBody rest).1, (csvReadQuotedBody rest).2) := by
  rw [csvReadQuotedBody.eq_def]
  simp [h]

theorem csvReadQuotedBody_length_le (l : List Char) :
    (csvReadQuotedBody l).2.length ≤ l.length := by
  induction l using csvReadQuotedBody.induct with
  | case1 => simp [csvReadQuotedBody]
  | case2 rest ih =>
    rw [csvReadQuotedBody_esc]
    simp only [List.length_cons]
    omega
  | case3 c rest hc =>
    rw [csvReadQuotedBody_close c rest hc]
    simp only [List.length_cons]
    omega
  | case4 =>
    simp [csvReadQuotedBody]
  | case5 c rest hc ih =>
    rw [csvReadQuotedBody_other c rest hc]
    simp only [List.length_cons]
    omega

theorem csvReadField_quoted (rest : List Char) :
    csvReadField ('"' :: rest) =
      (String.mk (csvReadQuotedBody rest).1, (csvReadQuotedBody rest).2) := by
  simp [csvReadField]

theorem csvReadField_plain (c : Char) (rest : List Char) (h : c ≠ '"') :
    csvReadField (c :: rest) =
      (String.mk ((c :: rest).takeWhile csvPlainChar),
       (c :: rest).dropWhile csvPlainChar) := by
  simp [csvReadField, h]

theorem csvReadField_length_le (l : List Char) :
    (csvReadField l).2.length ≤ l.length := by
  match l with
  | [] => simp [csvReadField]
  | c :: rest =>
    by_cases hc : c = '"'
    · subst hc
      rw [csvReadField_quoted]
      have h := csvReadQuotedBody_length_le rest
      simp only [List.length_cons]
      omega
    · rw [csvReadField_plain c rest hc]
      exact (List.dropWhile_sublist _).length_le

/-- If an unquoted-field remainder is non-empty, it starts with a character
failing the predicate. -/
theorem dropWhile_head_not (p : α → Bool) (l : List α) (c : α) (r : List α)
    (h : l.dropWhile p = c :: r) : p c = false := by
  induction l with
  | nil => simp at h
  | cons x xs ih =>
    rw [List.dropWhile_cons] at h
    by_cases hp : p x
    · simp [hp] at h
      exact ih h
    · simp [hp] at h
      rw [← h.1]
      simpa using hp

/-- Modelled from the spec: one standard CSV record — fields separated by
commas, terminated by a newline or end of input.  Returns the fields and the
input after the record terminator.  `fuel` bounds the number of fields; a
record over input `l` has at most `l.length` separators, so `csvReadRecord`
below supplies `l.length` (the fallback arm is unreachable then, and made to
agree with the end-of-input arm). -/
def csvReadRecordAux : Nat → List Char → List String × List Char
  | 0, l => ([(csvReadField l).1], (csvReadField l).2)
  | Nat.succ fuel, l =>
    match (csvReadField l).2 with
    | c :: r2 =>
      if c = ',' then
        ((csvReadField l).1 :: (csvReadRecordAux fuel r2).1,
         (csvReadRecordAux fuel r2).2)
      else if c = '\n' then
        ([(csvReadField l).1], r2)
      else
        ([(csvReadField l).1], c :: r2)
    | [] => ([(csvReadField l).1], [])

/-- One standard CSV record of the input. -/
def csvReadRecord (l : List Char) : List String × List Char :=
  csvReadRecordAux l.length l

/-- Modelled from the spec: parse a CSV text into its records under standard
quoting rules; `fuel` bounds the number of records (one record consumes at
least one character unless the whole input is consumed, so `l.length + 1`
suffices). -/
def csvParseAux : Nat → List Char → List (List String)
  | 0, _ => []
  | Nat.succ _, [] => []
  | Nat.succ fuel, l =>
    (csvReadRecord l).1 :: csvParseAux fuel (csvReadRecord l).2

/-- Modelled from the spec: parse a full CSV text into its records under
standard quoting rules. -/
def csvParse (l : List Char) : List (List String) :=
  csvParseAux (l.length + 1) l

/-! ## Helper lemmas -/

theorem objSet_fresh [DecidableEq κ] (o : List (κ × α)) (k : κ) (v : α)
    (h : k ∉ o.map Prod.fst) : objSet o k v = o ++ [(k, v)] := by
  induction o with
  | nil => rfl
  | cons p rest ih =>
    simp only [List.map_cons, List.mem_cons] at h
    push_neg at h
    rw [objSet]
    rw [if_neg (by exact fun hc => h.1 hc.symm)]
    rw [ih h.2]
    simp

theorem validateAnswers_aux (A : String → Option AnswerData) :
    ∀ (qs : List SurveyQuestion) (acc : List (String × String)),
    (qs.map (fun q => q.id)).Nodup →
    (∀ q ∈ qs, q.id ∉ acc.map Prod.fst) →
    qs.foldl
      (fun errs q =>
        match questionError A q with
        | some msg => objSet errs q.id msg
        | none => errs)
      acc =
    acc ++ qs.filterMap (fun q => (questionError A q).map (fun m => (q.id, m))) := by
  intro qs
  induction qs with
  | nil => intro acc _ _; simp
  | cons q rest ih =>
    intro acc hnd hfresh
    simp only [List.map_cons, List.nodup_cons] at hnd
    simp only [List.foldl_cons, List.filterMap_cons]
    cases herr : questionError A q with
    | none =>
      rw [ih acc hnd.2 (fun q' hq' => hfresh q' (List.mem_cons_of_mem q hq'))]
      simp
    | some msg =>
      simp only [Option.map_some]
      rw [objSet_fresh acc q.id msg (hfresh q (List.mem_cons_self q rest))]
      rw [ih (acc ++ [(q.id, msg)]) hnd.2 ?_]
      · simp
      · intro q' hq'
        simp only [List.map_append, List.mem_append]
        push_neg
        constructor
        · exact hfresh q' (List.mem_cons_of_mem q hq')
        · simp only [List.map_cons, List.map_nil, List.mem_singleton]
          intro hc
          exact hnd.1 (hc ▸ (List.mem_map_of_mem (fun q => q.id) hq'))

theorem validateAnswers_eq_filterMap (qs : List SurveyQuestion)
    (A : String → Option AnswerData) (hnd : (qs.map (fun q => q.id)).Nodup) :
    validateAnswers qs A =
      qs.filterMap (fun q => (questionError A q).map (fun m => (q.id, m))) := by
  rw [validateAnswers, validateAnswers_aux A qs [] hnd (by simp)]
  simp

theorem jsTrim_eq_empty_iff (s : String) :
    jsTrim s = "" ↔ s.toList.all Char.isWhitespace := by
  rw [jsTrim]
  constructor
  · intro h
    have h2 : (((s.toList.dropWhile Char.isWhitespace).reverse.dropWhile
        Char.isWhitespace).reverse) = [] := by
      have := congrArg String.toList h
      simpa using this
    rw [List.reverse_eq_nil_iff, List.dropWhile_eq_nil_iff] at h2
    have hdrop : ∀ x ∈ s.toList.dropWhile Char.isWhitespace, Char.isWhitespace x := by
      intro x hx
      exact h2 x (by simpa using hx)
    rw [List.all_eq_true]
    intro x hx
    rcases List.mem_append.mp
        ((List.takeWhile_append_dropWhile (p := Char.isWhitespace)
          (l := s.toList)) ▸ hx) with hx1 | hx2
    · exact List.mem_takeWhile_imp hx1
    · exact hdrop x hx2
  · intro h
    have hdrop : s.toList.dropWhile Char.isWhitespace = [] := by
      rw [List.dropWhile_eq_nil_iff]
      intro x hx
      exact List.all_eq_true.mp h x hx
    rw [hdrop]
    rfl

theorem questionError_isSome_iff (A : String → Option AnswerData)
    (q : SurveyQuestion) :
    (questionError A q).isSome = true ↔
      (q.required = true ∧
        (A q.id = none ∨
          ∃ a, A q.id = some a ∧
            (a.answer_text.toList.all Char.isWhitespace = true ∨
              (q.question_type = QuestionType.checkbox ∧
                ¬∃ l, a.answer_value = JsValue.vArr l ∧ l ≠ [])))) := by
  rw [questionError]
  by_cases hreq : q.required
  · simp only [if_pos hreq, hreq, true_and]
    cases hA : A q.id with
    | none => simp
    | some a =>
      simp only [Option.some.injEq, reduceCtorEq, false_or]
      by_cases htrim : jsTrim a.answer_text = ""
      · rw [if_pos htrim]
        constructor
        · intro _
          exact ⟨a, rfl, Or.inl ((jsTrim_eq_empty_iff a.answer_text).mp htrim)⟩
        · intro _
          rfl
      · rw [if_neg htrim]
        by_cases hcb : q.question_type = QuestionType.checkbox ∧
            (∀ l, a.answer_value = JsValue.vArr l → l = [])
        · rw [if_pos hcb]
          constructor
          · intro _
            refine ⟨a, rfl, Or.inr ⟨hcb.1, ?_⟩⟩
            rintro ⟨l, hl, hlne⟩
            exact hlne (hcb.2 l hl)
          · intro _
            rfl
        · rw [if_neg hcb]
          constructor
          · intro hfalse
            exact absurd hfalse (by simp)
          · rintro ⟨a', ha', hbad⟩
            exfalso
            cases ha'
            rcases hbad with hws | ⟨hty, hnoarr⟩
            · exact htrim ((jsTrim_eq_empty_iff a.answer_text).mpr hws)
            · refine hcb ⟨hty, ?_⟩
              intro l hl
              by_contra hlne
              exact hnoarr ⟨l, hl, hlne⟩
  · simp only [if_neg hreq]
    simp only [Option.isSome_none, Bool.false_eq_true, false_iff]
    rintro ⟨hr, _⟩
    exact hreq hr

theorem validateAnswers_mem_iff (qs : List SurveyQuestion)
    (A : String → Option AnswerData) (hnd : (qs.map (fun q => q.id)).Nodup)
    (q : SurveyQuestion) (hq : q ∈ qs) :
    (∃ e, (q.id, e) ∈ validateAnswers qs A) ↔ (questionError A q).isSome := by
  rw [validateAnswers_eq_filterMap qs A hnd]
  constructor
  · rintro ⟨e, he⟩
    rw [List.mem_filterMap] at he
    obtain ⟨q', hq', hmap⟩ := he
    cases herr : questionError A q' with
    | none => rw [herr] at hmap; cases hmap
    | some m =>
      rw [herr] at hmap
      have hmap2 : (q'.id, m) = (q.id, e) := by simpa using hmap
      have hid : q'.id = q.id := congrArg Prod.fst hmap2
      have heq : q' = q := List.inj_on_of_nodup_map hnd hq' hq hid
      subst heq
      rw [herr]
      rfl
  · intro hsome
    cases herr : questionError A q with
    | none => rw [herr] at hsome; cases hsome
    | some m =>
      refine ⟨m, ?_⟩
      rw [List.mem_filterMap]
      exact ⟨q, hq, by rw [herr]; rfl⟩

/-! ## Claim C1 — answer validation -/

/-- C1: for every question list and in-progress answer map (with distinct
question ids, as produced by the survey editor), `validateAnswers` records an
error for question `q` iff `q.required` holds and either the map has no entry
for `q`, or its `answer_text` is empty/whitespace-only, or `q` is a checkbox
question whose `answer_value` is not a non-empty list; non-required questions
are never flagged. -/
theorem C1_validateAnswers_iff (qs : List SurveyQuestion)
    (A : String → Option AnswerData) (hnd : (qs.map (fun q => q.id)).Nodup)
    (q : SurveyQuestion) (hq : q ∈ qs) :
    (∃ e, (q.id, e) ∈ validateAnswers qs A) ↔
      (q.required = true ∧
        (A q.id = none ∨
          ∃ a, A q.id = some a ∧
            (a.answer_text.toList.all Char.isWhitespace = true ∨
              (q.question_type = QuestionType.checkbox ∧
                ¬∃ l, a.answer_value = JsValue.vArr l ∧ l ≠ [])))) := by
  rw [validateAnswers_mem_iff qs A hnd q hq]
  exact questionError_isSome_iff A q

/-- Witness for C1: a required text question answered with whitespace only is
flagged. -/
theorem C1_validateAnswers_iff_witness :
    ∃ e, ("q1", e) ∈ validateAnswers
      [{ id := "q1", question_text := "Age", question_type := QuestionType.text,
         options := [], required := true }]
      (fun k => if k = "q1" then
          some { answer_text := "   ", answer_value := JsValue.vStr "   " }
        else none) :=
  (C1_validateAnswers_iff
      [{ id := "q1", question_text := "Age", question_type := QuestionType.text,
         options := [], required := true }]
      (fun k => if k = "q1" then
          some { answer_text := "   ", answer_value := JsValue.vStr "   " }
        else none)
      (by decide)
      { id := "q1", question_text := "Age", question_type := QuestionType.text,
        options := [], required := true }
      (by decide)).mpr
    ⟨rfl, Or.inr ⟨{ answer_text := "   ", answer_value := JsValue.vStr "   " },
      rfl, Or.inl (by decide)⟩⟩

/-! ## Claim C2 — duplicate-submission guard (sequential) -/

theorem checkSurveyResponseByEmail_iff (db : List SubmittedAnswer)
    (sid em : String) :
    checkSurveyResponseByEmail db sid em = true ↔
      ∃ r ∈ db, r.survey_id = sid ∧ r.email = em := by
  rw [checkSurveyResponseByEmail]
  rw [List.length_take]
  constructor
  · intro h
    have hne : db.filter (fun r => decide (r.survey_id = sid ∧ r.email = em)) ≠ [] := by
      intro hnil
      rw [hnil] at h
      simp at h
    obtain ⟨r, hr⟩ := List.exists_mem_of_ne_nil _ hne
    rw [List.mem_filter] at hr
    exact ⟨r, hr.1, by simpa using hr.2⟩
  · rintro ⟨r, hr, hmatch⟩
    have : r ∈ db.filter (fun r => decide (r.survey_id = sid ∧ r.email = em)) := by
      rw [List.mem_filter]
      exact ⟨hr, by simpa using hmatch⟩
    have hlen := List.length_pos_of_mem this
    simp only [decide_eq_true_eq, gt_iff_lt]
    omega

/-- C2: in a sequential execution, once a submission for survey `S` with
verified email `E` has been persisted, a later attempt for `S` with the same
`E` finds an existing row in the pre-check, is blocked with the
already-submitted outcome (whose UI offers only "use a different email
address"), and leaves the answers table untouched — the insert is never
reached. -/
theorem C2_duplicate_guard (db db1 : List SubmittedAnswer) (survey : Survey)
    (email : String) (a1 a2 : List (String × AnswerData))
    (h : attemptSubmission db survey (some email) a1 = (SubmitOutcome.submitted, db1)) :
    checkSurveyResponseByEmail db1 survey.id email = true ∧
      attemptSubmission db1 survey (some email) a2 =
        (SubmitOutcome.blockedAlreadySubmitted, db1) := by
  rw [attemptSubmission] at h
  by_cases hc : checkSurveyResponseByEmail db survey.id email
  · rw [if_pos hc] at h
    simp at h
  · rw [if_neg hc] at h
    by_cases hv : (validateAnswers survey.questions (fun k => (a1.lookup k))).length ≠ 0
    · rw [if_pos hv] at h
      simp at h
    · rw [if_neg hv] at h
      simp only [submitSurveyResponse] at h
      by_cases hlen : (a1.map (fun p =>
          { question_id := p.1
            email := email
            survey_id := survey.id
            answer_text := p.2.answer_text
            answer_value := p.2.answer_value : SubmittedAnswer })).length = 0
      · rw [if_pos hlen] at h
        simp at h
      · rw [if_neg hlen] at h
        simp only [Prod.mk.injEq, true_and] at h
        have hdb1 : db1 = db ++ a1.map (fun p =>
            { question_id := p.1
              email := email
              survey_id := survey.id
              answer_text := p.2.answer_text
              answer_value := p.2.answer_value : SubmittedAnswer }) := h.symm
        have ha1 : a1 ≠ [] := by
          intro hnil
          rw [hnil] at hlen
          simp at hlen
        obtain ⟨p, rest, hps⟩ := List.exists_cons_of_ne_nil ha1
        have hcheck : checkSurveyResponseByEmail db1 survey.id email = true := by
          rw [checkSurveyResponseByEmail_iff]
          refine ⟨{ question_id := p.1
                    email := email
                    survey_id := survey.id
                    answer_text := p.2.answer_text
                    answer_value := p.2.answer_value : SubmittedAnswer }, ?_, rfl, rfl⟩
          rw [hdb1, hps]
          simp
        refine ⟨hcheck, ?_⟩
        rw [attemptSubmission]
        rw [if_pos hcheck]

/-- Witness for C2: a concrete first submission succeeds, after which the
second attempt with the same email is blocked and the table is unchanged. -/
theorem C2_duplicate_guard_witness :
    checkSurveyResponseByEmail
        [{ question_id := "q1", email := "r@example.com", survey_id := "s1",
           answer_text := "Yes", answer_value := JsValue.vStr "Yes" }]
        "s1" "r@example.com" = true ∧
      attemptSubmission
        [{ question_id := "q1", email := "r@example.com", survey_id := "s1",
           answer_text := "Yes", answer_value := JsValue.vStr "Yes" }]
        { id := "s1", title := "T",
          questions := [{ id := "q1", question_text := "Q", question_type := QuestionType.radio,
                          options := ["Yes", "No"], required := true }] }
        (some "r@example.com") [] =
        (SubmitOutcome.blockedAlreadySubmitted,
         [{ question_id := "q1", email := "r@example.com", survey_id := "s1",
            answer_text := "Yes", answer_value := JsValue.vStr "Yes" }]) :=
  C2_duplicate_guard []
    [{ question_id := "q1", email := "r@example.com", survey_id := "s1",
       answer_text := "Yes", answer_value := JsValue.vStr "Yes" }]
    { id := "s1", title := "T",
      questions := [{ id := "q1", question_text := "Q", question_type := QuestionType.radio,
                      options := ["Yes", "No"], required := true }] }
    "r@example.com"
    [("q1", { answer_text := "Yes", answer_value := JsValue.vStr "Yes" })]
    []
    (by rfl)

/-! ## Claim C10 — empty submissions always fail -/

theorem validateAnswers_all_none (qs : List SurveyQuestion)
    (A : String → Option AnswerData) (h : ∀ q ∈ qs, questionError A q = none) :
    validateAnswers qs A = [] := by
  rw [validateAnswers]
  have haux : ∀ (l : List SurveyQuestion), (∀ q ∈ l, questionError A q = none) →
      ∀ (acc : List (String × String)), l.foldl
        (fun errs q =>
          match questionError A q with
          | some msg => objSet errs q.id msg
          | none => errs)
        acc = acc := by
    intro l
    induction l with
    | nil => intro _ acc; rfl
    | cons q rest ih =>
      intro hall acc
      rw [List.foldl_cons]
      rw [hall q (List.mem_cons_self q rest)]
      exact ih (fun q' hq' => hall q' (List.mem_cons_of_mem q hq')) acc
  exact haux qs h []

/-- C10: with an empty answers map, validation succeeds whenever every
question is non-required, yet the submission operation throws
`'No answers to submit'` and performs no insert, so a verified respondent who
answered zero questions can never complete a submission. -/
theorem C10_empty_submission_error (db : List SubmittedAnswer) (survey : Survey)
    (email : String)
    (hreq : ∀ q ∈ survey.questions, q.required = false)
    (hchk : checkSurveyResponseByEmail db survey.id email = false) :
    validateAnswers survey.questions
        (fun k => (([] : List (String × AnswerData)).lookup k)) = [] ∧
      submitSurveyResponse db [] = Except.error "No answers to submit" ∧
      attemptSubmission db survey (some email) [] =
        (SubmitOutcome.submitError "No answers to submit", db) := by
  have hval : validateAnswers survey.questions
      (fun k => (([] : List (String × AnswerData)).lookup k)) = [] := by
    apply validateAnswers_all_none
    intro q hq
    rw [questionError]
    rw [if_neg (by rw [hreq q hq]; simp)]
  refine ⟨hval, rfl, ?_⟩
  rw [attemptSubmission]
  rw [if_neg (by rw [hchk]; simp)]
  rw [if_neg (by rw [hval]; simp)]
  rfl

/-- Witness for C10: a survey whose single question is optional; the empty
submission surfaces the error and the table stays empty. -/
theorem C10_empty_submission_error_witness :
    attemptSubmission []
      { id := "s1", title := "T",
        questions := [{ id := "q1", question_text := "Q",
                        question_type := QuestionType.text,
                        options := [], required := false }] }
      (some "r@example.com") [] =
      (SubmitOutcome.submitError "No answers to submit", []) :=
  (C10_empty_submission_error []
    { id := "s1", title := "T",
      questions := [{ id := "q1", question_text := "Q",
                      question_type := QuestionType.text,
                      options := [], required := false }] }
    "r@example.com" (by decide) (by rfl)).2.2

/-! ## Claim C9 — one-time-code length gate -/

theorem sanitizeCodeInput_digits (s : String) :
    (sanitizeCodeInput s).toList.all Char.isDigit = true := by
  rw [sanitizeCodeInput]
  rw [List.all_eq_true]
  intro c hc
  have hc2 : c ∈ s.toList.filter Char.isDigit := List.mem_of_mem_take (by simpa using hc)
  exact (List.mem_filter.mp hc2).2

/-- C9 counterexample: in `EmailVerification.tsx`, a sanitized 3-digit code
(`"123"`, length below 6) is not rejected locally — the flow reaches the
identity collaborator (`verifyOtp`) and surfaces the collaborator's
rejection, contradicting the claim that wrong-length codes never invoke the
collaborator. -/
theorem C9_short_code_reaches_collaborator :
    (sanitizeCodeInput "123").length < 6 ∧
      handleVerifyOTPSimple (fun _ _ => false) "r@example.com"
          (sanitizeCodeInput "123") = VerifyOutcome.verifyRejected ∧
      (∀ msg, handleVerifyOTPSimple (fun _ _ => false) "r@example.com"
          (sanitizeCodeInput "123") ≠ VerifyOutcome.localError msg) := by
  refine ⟨by decide, by decide, ?_⟩
  intro msg h
  rw [(by decide : handleVerifyOTPSimple (fun _ _ => false) "r@example.com"
      (sanitizeCodeInput "123") = VerifyOutcome.verifyRejected)] at h
  cases h

/-- C9 (amended): in the `EmailVerificationFlow` gate (the one used by the
survey response flow), a sanitized code of fewer than 6 digits is rejected
locally with an inline error and the identity collaborator is never invoked:
whenever the collaborator is reached the code is exactly 6 numeric digits,
and the success callback fires only for a code the collaborator accepts.
(In the parallel `EmailVerification.tsx` variant, only emptiness is checked
locally; see the counterexample.) -/
theorem C9_flow_gate (verifier : String → String → Bool) (email typed : String) :
    ((sanitizeCodeInput typed).length < 6 →
      ∃ msg, handleVerifyOTPFlow verifier email (sanitizeCodeInput typed) =
        VerifyOutcome.localError msg) ∧
    ((∀ msg, handleVerifyOTPFlow verifier email (sanitizeCodeInput typed) ≠
        VerifyOutcome.localError msg) →
      (sanitizeCodeInput typed).length = 6 ∧
        (sanitizeCodeInput typed).toList.all Char.isDigit = true) ∧
    (∀ e, handleVerifyOTPFlow verifier email (sanitizeCodeInput typed) =
        VerifyOutcome.verifySuccess e →
      e = email ∧ verifier email (sanitizeCodeInput typed) = true) := by
  rw [handleVerifyOTPFlow]
  by_cases hempty : sanitizeCodeInput typed = ""
  · rw [if_pos hempty]
    refine ⟨fun _ => ⟨"Please enter the verification code", rfl⟩, ?_, ?_⟩
    · intro hne
      exact absurd rfl (hne "Please enter the verification code")
    · intro e he
      cases he
  · rw [if_neg hempty]
    by_cases hlen : (sanitizeCodeInput typed).length ≠ 6
    · rw [if_pos hlen]
      refine ⟨fun _ => ⟨"Please enter all 6 digits of the verification code", rfl⟩, ?_, ?_⟩
      · intro hne
        exact absurd rfl (hne "Please enter all 6 digits of the verification code")
      · intro e he
        cases he
    · rw [if_neg hlen]
      push_neg at hlen
      refine ⟨fun hlt => absurd hlen (by omega), ?_, ?_⟩
      · intro _
        exact ⟨hlen, sanitizeCodeInput_digits typed⟩
      · intro e he
        by_cases hv : verifier email (sanitizeCodeInput typed)
        · rw [if_pos hv] at he
          cases he
          exact ⟨rfl, hv⟩
        · rw [if_neg hv] at he
          cases he

/-- Witness for C9 (amended): a 5-digit typed code is rejected locally by the
flow gate. -/
theorem C9_flow_gate_witness :
    ∃ msg, handleVerifyOTPFlow (fun _ _ => true) "r@example.com"
        (sanitizeCodeInput "12345") = VerifyOutcome.localError msg :=
  (C9_flow_gate (fun _ _ => true) "r@example.com" "12345").1 (by decide)

/-! ## Claims C5 and C6 — choice tallies -/

theorem initOptionCounts_aux (options : List String) :
    ∀ (acc : List (String × Nat)), options.Nodup →
    (∀ o ∈ options, o ∉ acc.map Prod.fst) →
    options.foldl (fun acc o => objSet acc o 0) acc =
      acc ++ options.map (fun o => (o, 0)) := by
  induction options with
  | nil => intro acc _ _; simp
  | cons o rest ih =>
    intro acc hnd hfresh
    simp only [List.nodup_cons] at hnd
    rw [List.foldl_cons]
    rw [objSet_fresh acc o 0 (hfresh o (List.mem_cons_self o rest))]
    rw [ih (acc ++ [(o, 0)]) hnd.2 ?_]
    · simp
    · intro o' ho'
      simp only [List.map_append, List.mem_append]
      push_neg
      refine ⟨hfresh o' (List.mem_cons_of_mem o ho'), ?_⟩
      simp only [List.map_cons, List.map_nil, List.mem_singleton]
      intro hc
      exact hnd.1 (hc ▸ ho')

theorem initOptionCounts_eq (options : List String) (hnd : options.Nodup) :
    initOptionCounts options = options.map (fun o => (o, 0)) := by
  rw [initOptionCounts, initOptionCounts_aux options [] hnd (by simp)]
  simp

theorem objGet_map (options : List String) (f : String → Nat) (k : String) :
    objGet (options.map (fun o => (o, f o))) k =
      if k ∈ options then some (f k) else none := by
  induction options with
  | nil => simp [objGet]
  | cons o rest ih =>
    rw [List.map_cons, objGet]
    by_cases ho : o = k
    · subst ho
      simp
    · rw [if_neg ho, ih]
      by_cases hk : k ∈ rest
      · rw [if_pos hk, if_pos (List.mem_cons_of_mem o hk)]
      · rw [if_neg hk, if_neg (by
          intro hc
          rcases List.mem_cons.mp hc with hc1 | hc2
          · exact ho hc1.symm
          · exact hk hc2)]

theorem objSet_map (options : List String) (hnd : options.Nodup)
    (f : String → Nat) (k : String) (hk : k ∈ options) (v : Nat) :
    objSet (options.map (fun o => (o, f o))) k v =
      options.map (fun o => (o, if o = k then v else f o)) := by
  induction options with
  | nil => cases hk
  | cons o rest ih =>
    simp only [List.nodup_cons] at hnd
    rw [List.map_cons, objSet, List.map_cons]
    by_cases ho : o = k
    · rw [if_pos ho, if_pos ho]
      subst ho
      congr 1
      apply List.map_congr_left
      intro o' ho'
      rw [if_neg (by intro hc; exact hnd.1 (hc ▸ ho'))]
    · rw [if_neg ho, if_neg ho]
      rcases List.mem_cons.mp hk with hc1 | hc2
      · exact absurd hc1.symm ho
      · rw [ih hnd.2 hc2]

theorem bumpIfPresent_map (options : List String) (hnd : options.Nodup)
    (f : String → Nat) (k : String) :
    bumpIfPresent (options.map (fun o => (o, f o))) k =
      options.map (fun o => (o, if o = k then f o + 1 else f o)) := by
  rw [bumpIfPresent, objGet_map]
  by_cases hk : k ∈ options
  · rw [if_pos hk]
    show objSet (options.map (fun o => (o, f o))) k (f k + 1) = _
    rw [objSet_map options hnd f k hk (f k + 1)]
    apply List.map_congr_left
    intro o ho
    by_cases ho2 : o = k
    · subst ho2; simp
    · simp [ho2]
  · rw [if_neg hk]
    show options.map (fun o => (o, f o)) = _
    apply List.map_congr_left
    intro o ho
    rw [if_neg (by intro hc; exact hk (hc ▸ ho))]

/-- The tally of a checkbox question is the fold of `bumpIfPresent` over the
concatenated per-row selections. -/
theorem checkbox_tally_flat (q : SurveyQuestion) (responses : List SurveyAnswer)
    (hty : q.question_type = QuestionType.checkbox) :
    processMultipleChoiceData q responses =
      ((responses.filter (fun r => r.question_id = q.id)).flatMap
        (fun r => checkboxSelections r.answer_value)).foldl bumpIfPresent
        (initOptionCounts q.options) := by
  rw [processMultipleChoiceData, if_pos hty]
  generalize initOptionCounts q.options = acc
  generalize responses.filter (fun r => r.question_id = q.id) = rows
  induction rows generalizing acc with
  | nil => simp
  | cons r rest ih =>
    rw [List.foldl_cons, List.flatMap_cons, List.foldl_append]
    exact ih _

/-- C6: for a radio (single-choice) question with distinct declared options,
the tally assigns to each option exactly the number of answer rows for that
question whose `answer_text` equals the option string; rows whose text
matches no declared option are dropped silently. -/
theorem C6_radio_tally (q : SurveyQuestion) (responses : List SurveyAnswer)
    (hty : q.question_type = QuestionType.radio) (hnd : q.options.Nodup) :
    processMultipleChoiceData q responses =
      q.options.map (fun o =>
        (o, (responses.filter (fun r => r.question_id = q.id)).countP
          (fun r => r.answer_text = o))) := by
  rw [processMultipleChoiceData]
  rw [if_neg (by rw [hty]; intro hc; cases hc)]
  rw [initOptionCounts_eq q.options hnd]
  have hfold : ∀ (rows : List SurveyAnswer) (f : String → Nat),
      rows.foldl (fun acc r => bumpIfPresent acc r.answer_text)
        (q.options.map (fun o => (o, f o))) =
      q.options.map (fun o => (o, f o + rows.countP (fun r => r.answer_text = o))) := by
    intro rows
    induction rows with
    | nil =>
      intro f
      simp only [List.foldl_nil]
      apply List.map_congr_left
      intro o _
      simp
    | cons r rest ih =>
      intro f
      rw [List.foldl_cons, bumpIfPresent_map q.options hnd f r.answer_text]
      rw [ih (fun o => if o = r.answer_text then f o + 1 else f o)]
      apply List.map_congr_left
      intro o _
      simp only [Prod.mk.injEq, true_and]
      rw [List.countP_cons]
      by_cases ho : o = r.answer_text
      · rw [if_pos ho]
        rw [show (decide (r.answer_text = o)) = true by simpa using ho.symm]
        simp only [if_true]
        omega
      · rw [if_neg ho]
        rw [show (decide (r.answer_text = o)) = false by
          simp only [decide_eq_false_iff_not]
          exact fun h => ho h.symm]
        simp only [Bool.false_eq_true, if_false]
        omega
  rw [hfold (responses.filter (fun r => r.question_id = q.id)) (fun _ => 0)]
  apply List.map_congr_left
  intro o _
  simp

/-- Witness for C6: the Yes/No scenario — answers Yes, Yes, No give the tally
`{Yes: 2, No: 1}`. -/
theorem C6_radio_tally_witness :
    processMultipleChoiceData
      { id := "q1", question_text := "Q", question_type := QuestionType.radio,
        options := ["Yes", "No"], required := false }
      [{ question_id := "q1", survey_id := "s", email := "a@x.com",
         answer_text := "Yes", answer_value := JsValue.vStr "Yes", created_at := 0 },
       { question_id := "q1", survey_id := "s", email := "b@x.com",
         answer_text := "Yes", answer_value := JsValue.vStr "Yes", created_at := 0 },
       { question_id := "q1", survey_id := "s", email := "c@x.com",
         answer_text := "No", answer_value := JsValue.vStr "No", created_at := 0 }] =
      [("Yes", 2), ("No", 1)] := by
  rw [C6_radio_tally
    { id := "q1", question_text := "Q", question_type := QuestionType.radio,
      options := ["Yes", "No"], required := false }
    [{ question_id := "q1", survey_id := "s", email := "a@x.com",
       answer_text := "Yes", answer_value := JsValue.vStr "Yes", created_at := 0 },
     { question_id := "q1", survey_id := "s", email := "b@x.com",
       answer_text := "Yes", answer_value := JsValue.vStr "Yes", created_at := 0 },
     { question_id := "q1", survey_id := "s", email := "c@x.com",
       answer_text := "No", answer_value := JsValue.vStr "No", created_at := 0 }]
    rfl (by decide)]
  rfl

theorem checkboxSelections_json_list (s : String) (l : List JsValue)
    (hparse : jsonParse s = some (JsValue.vArr l)) :
    checkboxSelections (JsValue.vStr s) = checkboxSelections (JsValue.vArr l) := by
  have hsne : s ≠ "" := by
    intro h0
    rw [h0] at hparse
    exact Option.noConfusion hparse
  show (match jsonParse (if jsFalsy (JsValue.vStr s) then "[]"
      else jsToString (JsValue.vStr s)) with
    | some (JsValue.vArr l2) => l2.map jsToString
    | _ => []) = l.map jsToString
  rw [show jsFalsy (JsValue.vStr s) = false by
    simp only [jsFalsy, decide_eq_false_iff_not]
    exact hsne]
  show (match jsonParse s with
    | some (JsValue.vArr l2) => l2.map jsToString
    | _ => []) = l.map jsToString
  rw [hparse]

theorem checkboxSelections_malformed (v : JsValue)
    (hna : ∀ l, v ≠ JsValue.vArr l)
    (hp : jsonParse (if jsFalsy v then "[]" else jsToString v) = none) :
    checkboxSelections v = [] := by
  cases v with
  | vArr l => exact absurd rfl (hna l)
  | vNull =>
    show (match jsonParse (if jsFalsy JsValue.vNull then "[]"
        else jsToString JsValue.vNull) with
      | some (JsValue.vArr l2) => l2.map jsToString
      | _ => []) = []
    rw [hp]
  | vBool b =>
    show (match jsonParse (if jsFalsy (JsValue.vBool b) then "[]"
        else jsToString (JsValue.vBool b)) with
      | some (JsValue.vArr l2) => l2.map jsToString
      | _ => []) = []
    rw [hp]
  | vNum n =>
    show (match jsonParse (if jsFalsy (JsValue.vNum n) then "[]"
        else jsToString (JsValue.vNum n)) with
      | some (JsValue.vArr l2) => l2.map jsToString
      | _ => []) = []
    rw [hp]
  | vStr s =>
    show (match jsonParse (if jsFalsy (JsValue.vStr s) then "[]"
        else jsToString (JsValue.vStr s)) with
      | some (JsValue.vArr l2) => l2.map jsToString
      | _ => []) = []
    rw [hp]
  | vObj o =>
    show (match jsonParse (if jsFalsy (JsValue.vObj o) then "[]"
        else jsToString (JsValue.vObj o)) with
      | some (JsValue.vArr l2) => l2.map jsToString
      | _ => []) = []
    rw [hp]

/-- C5: for a checkbox question, a JSON-encoded list string and the actual
list it denotes produce identical tallies; an `answer_value` that is neither
a list nor (after the `|| '[]'` coercion) parseable JSON contributes zero
selections, leaving the tally as if the row were absent — and, the embedding
being total, no case raises. -/
theorem C5_checkbox_representations (q : SurveyQuestion)
    (hty : q.question_type = QuestionType.checkbox) :
    (∀ (pre post : List SurveyAnswer) (r : SurveyAnswer) (s : String) (l : List JsValue),
      jsonParse s = some (JsValue.vArr l) →
      processMultipleChoiceData q
          (pre ++ { r with answer_value := JsValue.vStr s } :: post) =
        processMultipleChoiceData q
          (pre ++ { r with answer_value := JsValue.vArr l } :: post)) ∧
    (∀ (pre post : List SurveyAnswer) (r : SurveyAnswer) (v : JsValue),
      (∀ l, v ≠ JsValue.vArr l) →
      jsonParse (if jsFalsy v then "[]" else jsToString v) = none →
      processMultipleChoiceData q (pre ++ { r with answer_value := v } :: post) =
        processMultipleChoiceData q (pre ++ post)) := by
  constructor
  · intro pre post r s l hparse
    rw [checkbox_tally_flat q _ hty, checkbox_tally_flat q _ hty]
    congr 1
    rw [List.filter_append, List.filter_append, List.filter_cons, List.filter_cons]
    have hsel := checkboxSelections_json_list s l hparse
    by_cases hq : r.question_id = q.id
    · rw [if_pos (by simpa using hq), if_pos (by simpa using hq)]
      rw [List.flatMap_append, List.flatMap_append, List.flatMap_cons, List.flatMap_cons]
      rw [show ({ r with answer_value := JsValue.vStr s } : SurveyAnswer).answer_value
          = JsValue.vStr s from rfl]
      rw [show ({ r with answer_value := JsValue.vArr l } : SurveyAnswer).answer_value
          = JsValue.vArr l from rfl]
      rw [hsel]
    · rw [if_neg (by simpa using hq), if_neg (by simpa using hq)]
  · intro pre post r v hna hp
    rw [checkbox_tally_flat q _ hty, checkbox_tally_flat q _ hty]
    congr 1
    rw [List.filter_append, List.filter_append, List.filter_cons]
    have hsel := checkboxSelections_malformed v hna hp
    by_cases hq : r.question_id = q.id
    · rw [if_pos (by simpa using hq)]
      rw [List.flatMap_append, List.flatMap_append, List.flatMap_cons]
      rw [show ({ r with answer_value := v } : SurveyAnswer).answer_value = v from rfl]
      rw [hsel]
      simp
    · rw [if_neg (by simpa using hq)]

/-- Witness for C5: the scenario — `answer_value` given as the string
`["A","B"]` tallies identically to the actual two-element list, and a
non-JSON string contributes nothing. -/
theorem C5_checkbox_representations_witness :
    processMultipleChoiceData
        { id := "q1", question_text := "Q", question_type := QuestionType.checkbox,
          options := ["A", "B", "C"], required := false }
        [{ question_id := "q1", survey_id := "s", email := "a@x.com",
           answer_text := "A, B", answer_value := JsValue.vStr "[\"A\",\"B\"]",
           created_at := 0 }] =
      processMultipleChoiceData
        { id := "q1", question_text := "Q", question_type := QuestionType.checkbox,
          options := ["A", "B", "C"], required := false }
        [{ question_id := "q1", survey_id := "s", email := "a@x.com",
           answer_text := "A, B",
           answer_value := JsValue.vArr [JsValue.vStr "A", JsValue.vStr "B"],
           created_at := 0 }] ∧
      processMultipleChoiceData
        { id := "q1", question_text := "Q", question_type := QuestionType.checkbox,
          options := ["A", "B", "C"], required := false }
        [{ question_id := "q1", survey_id := "s", email := "a@x.com",
           answer_text := "oops", answer_value := JsValue.vStr "oops",
           created_at := 0 }] =
      processMultipleChoiceData
        { id := "q1", question_text := "Q", question_type := QuestionType.checkbox,
          options := ["A", "B", "C"], required := false }
        [] := by
  constructor
  · exact (C5_checkbox_representations
      { id := "q1", question_text := "Q", question_type := QuestionType.checkbox,
        options := ["A", "B", "C"], required := false } rfl).1
      [] []
      { question_id := "q1", survey_id := "s", email := "a@x.com",
        answer_text := "A, B", answer_value := JsValue.vNull, created_at := 0 }
      "[\"A\",\"B\"]" [JsValue.vStr "A", JsValue.vStr "B"] rfl
  · exact (C5_checkbox_representations
      { id := "q1", question_text := "Q", question_type := QuestionType.checkbox,
        options := ["A", "B", "C"], required := false } rfl).2
      [] []
      { question_id := "q1", survey_id := "s", email := "a@x.com",
        answer_text := "oops", answer_value := JsValue.vNull, created_at := 0 }
      (JsValue.vStr "oops") (fun l h => JsValue.noConfusion h) rfl

/-! ## Claim C3 — numeric summary -/

theorem foldl_add_div (k : Rat) :
    ∀ (l : List Rat) (init : Rat),
      l.foldl (fun s n => s + n / k) init = init + (l.map (fun n => n / k)).sum := by
  intro l
  induction l with
  | nil => intro init; simp
  | cons x xs ih =>
    intro init
    rw [List.foldl_cons, ih (init + x / k), List.map_cons, List.sum_cons]
    ring

theorem sum_map_div_mul (l : List Rat) (k : Rat) (hk : k ≠ 0) :
    (l.map (fun n => n / k)).sum * k = l.sum := by
  induction l with
  | nil => simp
  | cons x xs ih =>
    rw [List.map_cons, List.sum_cons, List.sum_cons, add_mul, ih]
    rw [div_mul_cancel₀ x hk]

theorem foldl_min_spec :
    ∀ (xs : List Rat) (a : Rat),
      (xs.foldl min a = a ∨ xs.foldl min a ∈ xs) ∧
        xs.foldl min a ≤ a ∧ ∀ y ∈ xs, xs.foldl min a ≤ y := by
  intro xs
  induction xs with
  | nil => intro a; exact ⟨Or.inl rfl, le_refl a, by simp⟩
  | cons x rest ih =>
    intro a
    rw [List.foldl_cons]
    obtain ⟨hmem, hle, hall⟩ := ih (min a x)
    refine ⟨?_, le_trans hle (min_le_left a x), ?_⟩
    · rcases hmem with h1 | h2
      · rcases le_total a x with hax | hxa
        · rw [min_eq_left hax] at h1 ⊢
          exact Or.inl h1
        · rw [min_eq_right hxa] at h1 ⊢
          exact Or.inr (by rw [h1]; exact List.mem_cons_self x rest)
      · exact Or.inr (List.mem_cons_of_mem x h2)
    · intro y hy
      rcases List.mem_cons.mp hy with rfl | hy2
      · exact le_trans hle (min_le_right a y)
      · exact hall y hy2

theorem foldl_max_spec :
    ∀ (xs : List Rat) (a : Rat),
      (xs.foldl max a = a ∨ xs.foldl max a ∈ xs) ∧
        a ≤ xs.foldl max a ∧ ∀ y ∈ xs, y ≤ xs.foldl max a := by
  intro xs
  induction xs with
  | nil => intro a; exact ⟨Or.inl rfl, le_refl a, by simp⟩
  | cons x rest ih =>
    intro a
    rw [List.foldl_cons]
    obtain ⟨hmem, hle, hall⟩ := ih (max a x)
    refine ⟨?_, le_trans (le_max_left a x) hle, ?_⟩
    · rcases hmem with h1 | h2
      · rcases le_total a x with hax | hxa
        · rw [max_eq_right hax] at h1 ⊢
          exact Or.inr (by rw [h1]; exact List.mem_cons_self x rest)
        · rw [max_eq_left hxa] at h1 ⊢
          exact Or.inl h1
      · exact Or.inr (List.mem_cons_of_mem x h2)
    · intro y hy
      rcases List.mem_cons.mp hy with rfl | hy2
      · exact le_trans (le_max_right a y) hle
      · exact hall y hy2

theorem jsMathMin_cons (x : Rat) (xs : List Rat) :
    jsMathMin (x :: xs) = JsNum.fin (xs.foldl min x) := by
  rw [jsMathMin, List.foldl_cons]
  show List.foldl jsMin2 (JsNum.fin x) xs = JsNum.fin (xs.foldl min x)
  induction xs generalizing x with
  | nil => rfl
  | cons y ys ih =>
    rw [List.foldl_cons, List.foldl_cons]
    exact ih (min x y)

theorem jsMathMax_cons (x : Rat) (xs : List Rat) :
    jsMathMax (x :: xs) = JsNum.fin (xs.foldl max x) := by
  rw [jsMathMax, List.foldl_cons]
  show List.foldl jsMax2 (JsNum.fin x) xs = JsNum.fin (xs.foldl max x)
  induction xs generalizing x with
  | nil => rfl
  | cons y ys ih =>
    rw [List.foldl_cons, List.foldl_cons]
    exact ih (max x y)

/-- C3 counterexample: a number question whose only answer text is `"abc"`.
The render guard counts the unfiltered responses, so the summary IS produced
even though the filtered set of parseable values is empty — and the displayed
min and max are `Infinity` and `-Infinity` (the empty-spread values of
`Math.min`/`Math.max`), contradicting the claim that an empty filtered set
yields no summary and that no infinite value reaches the output. -/
theorem C3_empty_filtered_summary_shown :
    numberSummaryShown
        { id := "q1", question_text := "Q", question_type := QuestionType.number,
          options := [], required := false }
        [{ question_id := "q1", survey_id := "s", email := "a@x.com",
           answer_text := "abc", answer_value := JsValue.vStr "abc",
           created_at := 0 }] = true ∧
      parsedNumbers
        { id := "q1", question_text := "Q", question_type := QuestionType.number,
          options := [], required := false }
        [{ question_id := "q1", survey_id := "s", email := "a@x.com",
           answer_text := "abc", answer_value := JsValue.vStr "abc",
           created_at := 0 }] = [] ∧
      displayedMin
        { id := "q1", question_text := "Q", question_type := QuestionType.number,
          options := [], required := false }
        [{ question_id := "q1", survey_id := "s", email := "a@x.com",
           answer_text := "abc", answer_value := JsValue.vStr "abc",
           created_at := 0 }] = JsNum.inf ∧
      displayedMax
        { id := "q1", question_text := "Q", question_type := QuestionType.number,
          options := [], required := false }
        [{ question_id := "q1", survey_id := "s", email := "a@x.com",
           answer_text := "abc", answer_value := JsValue.vStr "abc",
           created_at := 0 }] = JsNum.negInf := by
  refine ⟨by decide, by decide, by decide, by decide⟩

/-- C3 (amended): for a number question the summary values are computed over
exactly the parseable numeric `answer_text` values (excluded from numerator,
denominator, min and max), with average·count = sum and min/max the true
extrema of the filtered set — but the summary is suppressed only when the
question has no answer rows at all; when rows exist and none parses, the
summary is still rendered with average 0, min `Infinity`, max `-Infinity`. -/
theorem C3_number_summary (q : SurveyQuestion) (responses : List SurveyAnswer)
    (hty : q.question_type = QuestionType.number) :
    (numberSummaryShown q responses = true ↔ getTextResponses q responses ≠ []) ∧
    (parsedNumbers q responses ≠ [] →
      displayedAverage q responses * ((parsedNumbers q responses).length : Rat) =
        (parsedNumbers q responses).sum ∧
      (∃ m, displayedMin q responses = JsNum.fin m ∧
        m ∈ parsedNumbers q responses ∧ ∀ x ∈ parsedNumbers q responses, m ≤ x) ∧
      (∃ M, displayedMax q responses = JsNum.fin M ∧
        M ∈ parsedNumbers q responses ∧ ∀ x ∈ parsedNumbers q responses, x ≤ M)) ∧
    (parsedNumbers q responses = [] →
      displayedAverage q responses = 0 ∧ displayedMin q responses = JsNum.inf ∧
        displayedMax q responses = JsNum.negInf) := by
  refine ⟨?_, ?_, ?_⟩
  · rw [numberSummaryShown]
    simp only [hty, decide_eq_true_eq, true_and]
    constructor
    · intro h hnil
      rw [hnil] at h
      simp at h
    · intro h
      have hpos : 0 < (getTextResponses q responses).length := by
        cases hl : getTextResponses q responses with
        | nil => exact absurd hl h
        | cons a t => simp
      omega
  · intro hne
    obtain ⟨x, xs, hxxs⟩ := List.exists_cons_of_ne_nil hne
    refine ⟨?_, ?_, ?_⟩
    · show (parsedNumbers q responses).foldl
          (fun sum n => sum + n / ((parsedNumbers q responses).length : Rat)) 0 *
          ((parsedNumbers q responses).length : Rat) = (parsedNumbers q responses).sum
      rw [foldl_add_div ((parsedNumbers q responses).length : Rat)
        (parsedNumbers q responses) 0]
      rw [zero_add]
      apply sum_map_div_mul
      rw [hxxs]
      simp only [List.length_cons]
      intro hc
      have : ((xs.length : Rat) + 1) = 0 := by push_cast at hc ⊢; linarith [hc]
      have h2 : (0 : Rat) ≤ (xs.length : Rat) := by positivity
      linarith
    · rw [displayedMin, hxxs, jsMathMin_cons]
      obtain ⟨hmem, hle, hall⟩ := foldl_min_spec xs x
      refine ⟨xs.foldl min x, rfl, ?_, ?_⟩
      · rcases hmem with h1 | h2
        · rw [h1]; exact List.mem_cons_self x xs
        · exact List.mem_cons_of_mem x h2
      · intro y hy
        rcases List.mem_cons.mp hy with rfl | hy2
        · exact hle
        · exact hall y hy2
    · rw [displayedMax, hxxs, jsMathMax_cons]
      obtain ⟨hmem, hle, hall⟩ := foldl_max_spec xs x
      refine ⟨xs.foldl max x, rfl, ?_, ?_⟩
      · rcases hmem with h1 | h2
        · rw [h1]; exact List.mem_cons_self x xs
        · exact List.mem_cons_of_mem x h2
      · intro y hy
        rcases List.mem_cons.mp hy with rfl | hy2
        · exact hle
        · exact hall y hy2
  · intro hnil
    rw [displayedAverage, displayedMin, displayedMax, hnil]
    exact ⟨rfl, rfl, rfl⟩

/-- Witness for C3 (amended): the `["3", "abc", "5"]` scenario — the summary
is shown, average 4, min 3, max 5, with `"abc"` excluded throughout. -/
theorem C3_number_summary_witness :
    numberSummaryShown
        { id := "q1", question_text := "Q", question_type := QuestionType.number,
          options := [], required := false }
        [{ question_id := "q1", survey_id := "s", email := "a@x.com",
           answer_text := "3", answer_value := JsValue.vStr "3", created_at := 0 },
         { question_id := "q1", survey_id := "s", email := "b@x.com",
           answer_text := "abc", answer_value := JsValue.vStr "abc", created_at := 0 },
         { question_id := "q1", survey_id := "s", email := "c@x.com",
           answer_text := "5", answer_value := JsValue.vStr "5", created_at := 0 }] = true ∧
      parsedNumbers
        { id := "q1", question_text := "Q", question_type := QuestionType.number,
          options := [], required := false }
        [{ question_id := "q1", survey_id := "s", email := "a@x.com",
           answer_text := "3", answer_value := JsValue.vStr "3", created_at := 0 },
         { question_id := "q1", survey_id := "s", email := "b@x.com",
           answer_text := "abc", answer_value := JsValue.vStr "abc", created_at := 0 },
         { question_id := "q1", survey_id := "s", email := "c@x.com",
           answer_text := "5", answer_value := JsValue.vStr "5", created_at := 0 }] = [3, 5] ∧
      displayedAverage
        { id := "q1", question_text := "Q", question_type := QuestionType.number,
          options := [], required := false }
        [{ question_id := "q1", survey_id := "s", email := "a@x.com",
           answer_text := "3", answer_value := JsValue.vStr "3", created_at := 0 },
         { question_id := "q1", survey_id := "s", email := "b@x.com",
           answer_text := "abc", answer_value := JsValue.vStr "abc", created_at := 0 },
         { question_id := "q1", survey_id := "s", email := "c@x.com",
           answer_text := "5", answer_value := JsValue.vStr "5", created_at := 0 }] = 4 ∧
      displayedMin
        { id := "q1", question_text := "Q", question_type := QuestionType.number,
          options := [], required := false }
        [{ question_id := "q1", survey_id := "s", email := "a@x.com",
           answer_text := "3", answer_value := JsValue.vStr "3", created_at := 0 },
         { question_id := "q1", survey_id := "s", email := "b@x.com",
           answer_text := "abc", answer_value := JsValue.vStr "abc", created_at := 0 },
         { question_id := "q1", survey_id := "s", email := "c@x.com",
           answer_text := "5", answer_value := JsValue.vStr "5", created_at := 0 }] = JsNum.fin 3 ∧
      displayedMax
        { id := "q1", question_text := "Q", question_type := QuestionType.number,
          options := [], required := false }
        [{ question_id := "q1", survey_id := "s", email := "a@x.com",
           answer_text := "3", answer_value := JsValue.vStr "3", created_at := 0 },
         { question_id := "q1", survey_id := "s", email := "b@x.com",
           answer_text := "abc", answer_value := JsValue.vStr "abc", created_at := 0 },
         { question_id := "q1", survey_id := "s", email := "c@x.com",
           answer_text := "5", answer_value := JsValue.vStr "5", created_at := 0 }] = JsNum.fin 5 := by
  refine ⟨?_, by with_unfolding_all rfl, by with_unfolding_all rfl,
    by with_unfolding_all rfl, by with_unfolding_all rfl⟩
  exact (C3_number_summary
    { id := "q1", question_text := "Q", question_type := QuestionType.number,
      options := [], required := false }
    [{ question_id := "q1", survey_id := "s", email := "a@x.com",
       answer_text := "3", answer_value := JsValue.vStr "3", created_at := 0 },
     { question_id := "q1", survey_id := "s", email := "b@x.com",
       answer_text := "abc", answer_value := JsValue.vStr "abc", created_at := 0 },
     { question_id := "q1", survey_id := "s", email := "c@x.com",
       answer_text := "5", answer_value := JsValue.vStr "5", created_at := 0 }]
    rfl).1.mpr (by decide)

/-! ## Claims C7 and C8 — response summary -/

/-- C7 counterexample: `getResponseSummary` reads the clock (`new Date()`)
for the last-24-hours bucket, so two invocations with identical question
lists, statistics and answer lists — one an hour after the single response,
one three days later — produce different outputs (recent-respondent count 1
versus 0).  The operation is therefore not a function of the question and
answer lists alone. -/
theorem C7_clock_dependence :
    getResponseSummary 3600000
        { id := "s1", title := "T", questions := [] } []
        [{ question_id := "q1", survey_id := "s1", email := "a@x.com",
           answer_text := "hi", answer_value := JsValue.vStr "hi",
           created_at := 0 }] ≠
      getResponseSummary 259200000
        { id := "s1", title := "T", questions := [] } []
        [{ question_id := "q1", survey_id := "s1", email := "a@x.com",
           answer_text := "hi", answer_value := JsValue.vStr "hi",
           created_at := 0 }] := by
  decide

/-- C7 (amended): the aggregation is a pure function of the question list,
the fetched per-question statistics, the answer list and the current instant
(the embedding is a total function, so identical arguments always yield
identical results and no input is mutated); every component of the summary
except the last-24-hours recency count — unique-respondent count, daily
histogram, per-question response rates — is independent of the clock. -/
theorem C7_aggregation_clock_independence (t1 t2 : Int) (survey : Survey)
    (stats : List (String × Nat)) (responses : List SurveyAnswer) :
    (getResponseSummary t1 survey stats responses).totalQuestions =
      (getResponseSummary t2 survey stats responses).totalQuestions ∧
    (getResponseSummary t1 survey stats responses).totalResponses =
      (getResponseSummary t2 survey stats responses).totalResponses ∧
    (getResponseSummary t1 survey stats responses).dailyResponseData =
      (getResponseSummary t2 survey stats responses).dailyResponseData ∧
    (getResponseSummary t1 survey stats responses).questionResponseRates =
      (getResponseSummary t2 survey stats responses).questionResponseRates :=
  ⟨rfl, rfl, rfl, rfl⟩

theorem objGet_objSet [DecidableEq κ] (o : List (κ × α)) (k : κ) (v : α) (k' : κ) :
    objGet (objSet o k v) k' = if k' = k then some v else objGet o k' := by
  induction o with
  | nil =>
    show (if k = k' then some v else none) =
      if k' = k then some v else (none : Option α)
    by_cases hk : k' = k
    · rw [if_pos hk.symm, if_pos hk]
    · rw [if_neg (fun hc => hk hc.symm), if_neg hk]
  | cons p rest ih =>
    obtain ⟨a, b⟩ := p
    show objGet (if a = k then (a, v) :: rest else (a, b) :: objSet rest k v) k' =
      if k' = k then some v else (if a = k' then some b else objGet rest k')
    by_cases ha : a = k
    · rw [if_pos ha]
      subst ha
      show (if a = k' then some v else objGet rest k') =
        if k' = a then some v else (if a = k' then some b else objGet rest k')
      by_cases hk : k' = a
      · rw [if_pos hk.symm, if_pos hk]
      · rw [if_neg (fun hc => hk hc.symm), if_neg hk,
          if_neg (fun hc => hk hc.symm)]
    · rw [if_neg ha]
      show (if a = k' then some b else objGet (objSet rest k v) k') = _
      rw [ih]
      by_cases hak : a = k'
      · have hk' : ¬k' = k := by rw [← hak]; exact ha
        rw [if_pos hak, if_neg hk', if_pos hak]
      · rw [if_neg hak]
        by_cases hk : k' = k
        · rw [if_pos hk, if_pos hk]
        · rw [if_neg hk, if_neg hk, if_neg hak]

theorem questionCounts_getD (rows : List SurveyAnswer) (k : String) :
    (objGet (questionCounts rows) k).getD 0 =
      rows.countP (fun r => r.question_id = k) := by
  rw [questionCounts]
  have haux : ∀ (l : List SurveyAnswer) (acc : List (String × Nat)),
      (objGet (l.foldl
        (fun acc r =>
          let acc2 := if (objGet acc r.question_id).getD 0 = 0 then
              objSet acc r.question_id 0
            else acc
          objSet acc2 r.question_id ((objGet acc2 r.question_id).getD 0 + 1))
        acc) k).getD 0 =
      (objGet acc k).getD 0 + l.countP (fun r => r.question_id = k) := by
    intro l
    induction l with
    | nil => intro acc; simp
    | cons r rest ih =>
      intro acc
      rw [List.foldl_cons, ih]
      have hacc2 : ∀ k', (objGet
          (if (objGet acc r.question_id).getD 0 = 0 then
            objSet acc r.question_id 0 else acc) k').getD 0 =
          (objGet acc k').getD 0 := by
        intro k'
        by_cases hz : (objGet acc r.question_id).getD 0 = 0
        · rw [if_pos hz, objGet_objSet]
          by_cases hk' : k' = r.question_id
          · rw [if_pos hk', hk', hz]
            rfl
          · rw [if_neg hk']
        · rw [if_neg hz]
      rw [List.countP_cons]
      show (objGet (objSet _ r.question_id _) k).getD 0 + _ = _
      rw [objGet_objSet]
      by_cases hk : k = r.question_id
      · rw [if_pos hk, hacc2 r.question_id]
        rw [show (decide (r.question_id = k)) = true by simpa using hk.symm]
        simp only [Option.getD_some, if_true]
        rw [hk]
        omega
      · rw [if_neg hk, hacc2 k]
        rw [show (decide (r.question_id = k)) = false by
          simp only [decide_eq_false_iff_not]
          exact fun h => hk h.symm]
        simp only [Bool.false_eq_true, if_false]
        omega
  rw [haux rows []]
  simp [objGet]

theorem dedupFirstAux_mem (x : String) :
    ∀ (l seen : List String), x ∈ dedupFirstAux seen l ↔ x ∈ l ∧ x ∉ seen := by
  intro l
  induction l with
  | nil => intro seen; simp [dedupFirstAux]
  | cons y ys ih =>
    intro seen
    rw [dedupFirstAux]
    by_cases hy : y ∈ seen
    · rw [if_pos hy, ih seen]
      constructor
      · rintro ⟨h1, h2⟩
        exact ⟨List.mem_cons_of_mem y h1, h2⟩
      · rintro ⟨hmem, hns⟩
        rcases List.mem_cons.mp hmem with rfl | h1
        · exact absurd hy hns
        · exact ⟨h1, hns⟩
    · rw [if_neg hy]
      simp only [List.mem_cons, ih (y :: seen)]
      constructor
      · rintro (rfl | ⟨h1, h2⟩)
        · exact ⟨Or.inl rfl, hy⟩
        · exact ⟨Or.inr h1, fun hs => h2 (Or.inr hs)⟩
      · rintro ⟨hmem, hns⟩
        rcases hmem with rfl | h1
        · exact Or.inl rfl
        · by_cases hxy : x = y
          · exact Or.inl hxy
          · refine Or.inr ⟨h1, ?_⟩
            intro hs
            rcases hs with h | h
            · exact hxy h
            · exact hns h

theorem dedupFirst_mem (l : List String) (x : String) :
    x ∈ dedupFirst l ↔ x ∈ l := by
  rw [dedupFirst, dedupFirstAux_mem]
  simp

theorem dedupFirstAux_nodup :
    ∀ (l seen : List String), (dedupFirstAux seen l).Nodup := by
  intro l
  induction l with
  | nil => intro seen; simp [dedupFirstAux]
  | cons y ys ih =>
    intro seen
    rw [dedupFirstAux]
    by_cases hy : y ∈ seen
    · rw [if_pos hy]
      exact ih seen
    · rw [if_neg hy]
      rw [List.nodup_cons]
      refine ⟨?_, ih (y :: seen)⟩
      intro hmem
      rw [dedupFirstAux_mem] at hmem
      exact hmem.2 (List.mem_cons_self y seen)

theorem dedupFirst_nodup (l : List String) : (dedupFirst l).Nodup :=
  dedupFirstAux_nodup l []

theorem dedupFirst_length (l : List String) :
    (dedupFirst l).length = l.toFinset.card := by
  have htofin : (dedupFirst l).toFinset = l.toFinset := by
    ext x
    simp only [List.mem_toFinset]
    exact dedupFirst_mem l x
  rw [← htofin]
  exact (List.toFinset_card_of_nodup (dedupFirst_nodup l)).symm

/-- C8: with the per-question statistics computed (as `getSurveyStatistics`
does) from the same answer rows, each question's entry in the summary is its
answer-row count paired with the response rate
`round(count / distinct-respondents * 100)` when there is at least one
distinct respondent, and `0` — with no division, exception or NaN — when
there are none. -/
theorem C8_response_rate (now : Int) (survey : Survey)
    (responses : List SurveyAnswer) :
    (getResponseSummary now survey (questionCounts responses)
        responses).questionResponseRates =
      survey.questions.map (fun q =>
        (q.question_text,
         responses.countP (fun r => r.question_id = q.id),
         if 0 < (responses.map (fun r => r.email)).toFinset.card then
           jsRound ((responses.countP (fun r => r.question_id = q.id) : Rat) /
             ((responses.map (fun r => r.email)).toFinset.card : Rat) * 100)
         else 0)) := by
  show survey.questions.map (fun q =>
      let responseCount := (objGet (questionCounts responses) q.id).getD 0
      let responseRate : Int :=
        if (dedupFirst (responses.map (fun r => r.email))).length > 0 then
          jsRound ((responseCount : Rat) /
            ((dedupFirst (responses.map (fun r => r.email))).length : Rat) * 100)
        else 0
      (q.question_text, responseCount, responseRate)) = _
  apply List.map_congr_left
  intro q _
  show (q.question_text, (objGet (questionCounts responses) q.id).getD 0, _) = _
  rw [questionCounts_getD responses q.id]
  rw [dedupFirst_length (responses.map (fun r => r.email))]

/-! ## Claim C4 — CSV export and round trip -/

theorem takeWhile_append_all (p : α → Bool) (l1 l2 : List α)
    (h : ∀ c ∈ l1, p c) :
    (l1 ++ l2).takeWhile p = l1 ++ l2.takeWhile p := by
  induction l1 with
  | nil => simp
  | cons x xs ih =>
    rw [List.cons_append, List.takeWhile_cons,
      if_pos (h x (List.mem_cons_self x xs))]
    rw [ih (fun c hc => h c (List.mem_cons_of_mem x hc))]
    rfl

theorem dropWhile_append_all (p : α → Bool) (l1 l2 : List α)
    (h : ∀ c ∈ l1, p c) :
    (l1 ++ l2).dropWhile p = l2.dropWhile p := by
  induction l1 with
  | nil => simp
  | cons x xs ih =>
    rw [List.cons_append, List.dropWhile_cons]
    rw [if_pos (h x (List.mem_cons_self x xs))]
    exact ih (fun c hc => h c (List.mem_cons_of_mem x hc))

theorem csvReadQuotedBody_escape (cs : List Char) :
    ∀ (rest : List Char), (∀ c r', rest = c :: r' → c ≠ '"') →
    csvReadQuotedBody (escapeCsvChars cs ++ '"' :: rest) = (cs, rest) := by
  induction cs with
  | nil =>
    intro rest hrest
    show csvReadQuotedBody ('"' :: rest) = ([], rest)
    cases rest with
    | nil => rfl
    | cons c r2 => exact csvReadQuotedBody_close c r2 (hrest c r2 rfl)
  | cons c cs ih =>
    intro rest hrest
    by_cases hc : c = '"'
    · subst hc
      show csvReadQuotedBody ('"' :: '"' :: (escapeCsvChars cs ++ '"' :: rest)) = _
      rw [csvReadQuotedBody_esc, ih rest hrest]
    · have henc : escapeCsvChars (c :: cs) = c :: escapeCsvChars cs := by
        rw [escapeCsvChars, if_neg hc]
      rw [henc, List.cons_append]
      rw [csvReadQuotedBody_other c _ hc, ih rest hrest]

theorem csvReadField_quote_cell (v : String) (rest : List Char)
    (hrest : ∀ c r', rest = c :: r' → c ≠ '"') :
    csvReadField ((csvQuote v).toList ++ rest) = (v, rest) := by
  have henc : (csvQuote v).toList ++ rest =
      '"' :: (escapeCsvChars v.toList ++ '"' :: rest) := by
    show ("\"" ++ String.mk (escapeCsvChars v.toList) ++ "\"").toList ++ rest = _
    show ('"' :: (escapeCsvChars v.toList ++ ['"'])) ++ rest = _
    simp
  rw [henc, csvReadField_quoted, csvReadQuotedBody_escape v.toList rest hrest]
  rfl

theorem csvReadField_raw_cell (v : String) (rest : List Char)
    (hplain : csvPlainText v)
    (hrest : rest = [] ∨ (∃ r', rest = ',' :: r') ∨ (∃ r', rest = '\n' :: r')) :
    csvReadField (v.toList ++ rest) = (v, rest) := by
  have hplainB : ∀ c ∈ v.toList, csvPlainChar c = true := by
    intro c hc
    obtain ⟨h1, _, h3⟩ := hplain c hc
    simp [csvPlainChar, h1, h3]
  have htake : (v.toList ++ rest).takeWhile csvPlainChar = v.toList := by
    rw [takeWhile_append_all csvPlainChar v.toList rest hplainB]
    have : rest.takeWhile csvPlainChar = [] := by
      rcases hrest with rfl | ⟨r', rfl⟩ | ⟨r', rfl⟩
      · rfl
      · rw [List.takeWhile_cons, if_neg (by simp [csvPlainChar])]
      · rw [List.takeWhile_cons, if_neg (by simp [csvPlainChar])]
    rw [this, List.append_nil]
  have hdrop : (v.toList ++ rest).dropWhile csvPlainChar = rest := by
    rw [dropWhile_append_all csvPlainChar v.toList rest hplainB]
    rcases hrest with rfl | ⟨r', rfl⟩ | ⟨r', rfl⟩
    · rfl
    · rw [List.dropWhile_cons, if_neg (by simp [csvPlainChar])]
    · rw [List.dropWhile_cons, if_neg (by simp [csvPlainChar])]
  cases hv : v.toList with
  | nil =>
    have hv0 : v = "" := by
      have := congrArg String.mk hv
      simpa using this
    subst hv0
    rcases hrest with rfl | ⟨r', rfl⟩ | ⟨r', rfl⟩
    · rfl
    · show csvReadField (',' :: r') = _
      rw [csvReadField_plain ',' r' (by decide)]
      rw [show ((',' :: r').takeWhile csvPlainChar) = [] from by
        rw [List.takeWhile_cons, if_neg (by simp [csvPlainChar])]]
      rw [show ((',' :: r').dropWhile csvPlainChar) = ',' :: r' from by
        rw [List.dropWhile_cons, if_neg (by simp [csvPlainChar])]]
    · show csvReadField ('\n' :: r') = _
      rw [csvReadField_plain '\n' r' (by decide)]
      rw [show (('\n' :: r').takeWhile csvPlainChar) = [] from by
        rw [List.takeWhile_cons, if_neg (by simp [csvPlainChar])]]
      rw [show (('\n' :: r').dropWhile csvPlainChar) = '\n' :: r' from by
        rw [List.dropWhile_cons, if_neg (by simp [csvPlainChar])]]
  | cons c cs =>
    have hcq : c ≠ '"' := by
      have := hplain c (by rw [hv]; exact List.mem_cons_self c cs)
      exact this.2.1
    have hinput : v.toList ++ rest = c :: (cs ++ rest) := by
      rw [hv]; rfl
    rw [List.cons_append, csvReadField_plain c (cs ++ rest) hcq]
    rw [← hinput, htake, hdrop]
    rfl

theorem jsJoin_comma_toList (w y : String) (ys : List String) :
    (jsJoin "," (w :: y :: ys)).toList =
      w.toList ++ ',' :: (jsJoin "," (y :: ys)).toList := by
  show ((w ++ "," ++ jsJoin "," (y :: ys))).toList = _
  show (w.toList ++ [',']) ++ (jsJoin "," (y :: ys)).toList = _
  simp

theorem csvReadRecordAux_cells (written values : List String)
    (hrel : List.Forall₂ csvCellRel written values) :
    ∀ (fuel : Nat) (rest : List Char),
    written ≠ [] →
    (rest = [] ∨ ∃ r', rest = '\n' :: r') →
    written.length - 1 + rest.length ≤ fuel →
    csvReadRecordAux fuel ((jsJoin "," written).toList ++ rest) =
      (values, rest.tail) := by
  induction hrel with
  | nil => intro fuel rest hne _ _; exact absurd rfl hne
  | cons hwv hrel2 ih =>
    rename_i w v ws vs
    intro fuel rest hne hrest hfuel
    cases ws with
    | nil =>
      cases hrel2
      have hjoin : (jsJoin "," [w]).toList ++ rest = w.toList ++ rest := rfl
      have hfld : csvReadField (w.toList ++ rest) = (v, rest) := by
        rcases hwv with ⟨rfl, hplain⟩ | rfl
        · refine csvReadField_raw_cell w rest hplain ?_
          rcases hrest with rfl | ⟨r', rfl⟩
          · exact Or.inl rfl
          · exact Or.inr (Or.inr ⟨r', rfl⟩)
        · refine csvReadField_quote_cell v rest ?_
          intro c r' hc
          rcases hrest with rfl | ⟨r2, rfl⟩
          · cases hc
          · injection hc with h1 h2
            subst h1
            decide
      rw [hjoin]
      rcases hrest with rfl | ⟨r', rfl⟩
      · cases fuel with
        | zero =>
          show ([(csvReadField (w.toList ++ [])).1],
            (csvReadField (w.toList ++ [])).2) = ([v], [])
          rw [hfld]
        | succ f =>
          simp only [csvReadRecordAux, hfld]
          rfl
      · cases fuel with
        | zero =>
          exfalso
          simp at hfuel
        | succ f =>
          simp only [csvReadRecordAux, hfld]
          simp
    | cons w2 ws' =>
      have hassoc : (jsJoin "," (w :: w2 :: ws')).toList ++ rest =
          w.toList ++ ',' :: ((jsJoin "," (w2 :: ws')).toList ++ rest) := by
        rw [jsJoin_comma_toList]
        simp
      have hfld : csvReadField
          (w.toList ++ ',' :: ((jsJoin "," (w2 :: ws')).toList ++ rest)) =
          (v, ',' :: ((jsJoin "," (w2 :: ws')).toList ++ rest)) := by
        rcases hwv with ⟨rfl, hplain⟩ | rfl
        · exact csvReadField_raw_cell w _ hplain (Or.inr (Or.inl ⟨_, rfl⟩))
        · refine csvReadField_quote_cell v _ ?_
          intro c r' hc
          injection hc with h1 h2
          subst h1
          decide
      cases fuel with
      | zero =>
        exfalso
        simp only [List.length_cons] at hfuel
        omega
      | succ f =>
        rw [hassoc]
        simp only [csvReadRecordAux, hfld, if_true]
        rw [ih f rest (by simp) hrest
          (by simp only [List.length_cons] at hfuel ⊢; omega)]

theorem csvParseAux_nil (fuel : Nat) : csvParseAux fuel [] = [] := by
  cases fuel with
  | zero => rfl
  | succ f => rfl

theorem jsJoin_comma_length (w : List String) :
    w.length - 1 ≤ (jsJoin "," w).toList.length := by
  induction w with
  | nil => simp
  | cons x xs ih =>
    cases xs with
    | nil => simp
    | cons y ys =>
      rw [jsJoin_comma_toList]
      simp only [List.length_cons, List.length_append]
      simp only [List.length_cons] at ih
      omega

theorem jsJoin_newline_toList (x y : String) (ys : List String) :
    (jsJoin "\n" (x :: y :: ys)).toList =
      x.toList ++ '\n' :: (jsJoin "\n" (y :: ys)).toList := by
  show ((x ++ "\n" ++ jsJoin "\n" (y :: ys))).toList = _
  show (x.toList ++ ['\n']) ++ (jsJoin "\n" (y :: ys)).toList = _
  simp

theorem jsJoin_ne_nil_of_ne (w : List String)
    (h : (jsJoin "," w).toList ≠ []) : w ≠ [] := by
  intro hw
  rw [hw] at h
  exact h rfl

theorem csvParseAux_rows (wrows vrows : List (List String))
    (hrel : List.Forall₂ (fun w v => List.Forall₂ csvCellRel w v ∧
      (jsJoin "," w).toList ≠ []) wrows vrows) :
    ∀ (fuel : Nat),
    wrows ≠ [] →
    wrows.length ≤ fuel →
    csvParseAux fuel ((jsJoin "\n" (wrows.map (jsJoin ","))).toList) = vrows := by
  induction hrel with
  | nil => intro fuel hne _; exact absurd rfl hne
  | cons hwv hrel2 ih =>
    rename_i w v ws vs
    intro fuel hne hfuel
    cases fuel with
    | zero =>
      exfalso
      simp at hfuel
    | succ f =>
      cases ws with
      | nil =>
        cases hrel2
        obtain ⟨c, cs, hcs⟩ := List.exists_cons_of_ne_nil hwv.2
        have hrec : csvReadRecord (c :: cs) = (v, []) := by
          show csvReadRecordAux (c :: cs).length (c :: cs) = (v, [])
          have h1 : (c :: cs) = (jsJoin "," w).toList ++ [] := by
            rw [hcs, List.append_nil]
          rw [h1]
          refine csvReadRecordAux_cells w v hwv.1 _ []
            (jsJoin_ne_nil_of_ne w hwv.2) (Or.inl rfl) ?_
          simp only [List.append_nil, List.length_nil, Nat.add_zero]
          exact jsJoin_comma_length w
        have hstep : csvParseAux (Nat.succ f)
            ((jsJoin "\n" ([w].map (jsJoin ","))).toList) =
            (csvReadRecord (c :: cs)).1 ::
              csvParseAux f (csvReadRecord (c :: cs)).2 := by
          show csvParseAux (Nat.succ f) ((jsJoin "," w).toList) = _
          rw [hcs]
          rfl
        rw [hstep, hrec, csvParseAux_nil]
      | cons w2 ws' =>
        obtain ⟨c, cs, hcs⟩ := List.exists_cons_of_ne_nil hwv.2
        have hrec : csvReadRecord (c :: (cs ++ '\n' ::
            (jsJoin "\n" ((w2 :: ws').map (jsJoin ","))).toList)) =
            (v, (jsJoin "\n" ((w2 :: ws').map (jsJoin ","))).toList) := by
          show csvReadRecordAux _ _ = _
          have h1 : c :: (cs ++ '\n' ::
              (jsJoin "\n" ((w2 :: ws').map (jsJoin ","))).toList) =
              (jsJoin "," w).toList ++ '\n' ::
                (jsJoin "\n" ((w2 :: ws').map (jsJoin ","))).toList := by
            rw [hcs]
            rfl
          rw [h1]
          refine csvReadRecordAux_cells w v hwv.1 _
            ('\n' :: (jsJoin "\n" ((w2 :: ws').map (jsJoin ","))).toList)
            (jsJoin_ne_nil_of_ne w hwv.2) (Or.inr ⟨_, rfl⟩) ?_
          simp only [List.length_append, List.length_cons]
          have h2 := jsJoin_comma_length w
          omega
        have hinput : (jsJoin "\n" ((w :: w2 :: ws').map (jsJoin ","))).toList =
            c :: (cs ++ '\n' ::
              (jsJoin "\n" ((w2 :: ws').map (jsJoin ","))).toList) := by
          show (jsJoin "\n" (jsJoin "," w :: jsJoin "," w2 ::
            ws'.map (jsJoin ","))).toList = _
          rw [jsJoin_newline_toList (jsJoin "," w) (jsJoin "," w2)
            (ws'.map (jsJoin ",")), hcs]
          rfl
        rw [hinput]
        show (csvReadRecord (c :: (cs ++ '\n' ::
            (jsJoin "\n" ((w2 :: ws').map (jsJoin ","))).toList))).1 ::
          csvParseAux f (csvReadRecord (c :: (cs ++ '\n' ::
            (jsJoin "\n" ((w2 :: ws').map (jsJoin ","))).toList))).2 = v :: vs
        rw [hrec]
        show v :: csvParseAux f
          ((jsJoin "\n" ((w2 :: ws').map (jsJoin ","))).toList) = v :: vs
        rw [ih f (by simp)
          (by simp only [List.length_cons] at hfuel ⊢; omega)]

theorem objSet_mem_of [DecidableEq κ] (m : List (κ × α)) (k : κ) (v : α)
    (p : κ × α) (hp : p ∈ objSet m k v) : p ∈ m ∨ p = (k, v) := by
  induction m with
  | nil =>
    rcases List.mem_singleton.mp hp with rfl
    exact Or.inr rfl
  | cons q rest ih =>
    obtain ⟨a, b⟩ := q
    by_cases ha : a = k
    · rw [show objSet ((a, b) :: rest) k v = (a, v) :: rest from by
        rw [objSet, if_pos ha]] at hp
      rcases List.mem_cons.mp hp with rfl | h2
      · right
        rw [ha]
      · exact Or.inl (List.mem_cons_of_mem _ h2)
    · rw [show objSet ((a, b) :: rest) k v = (a, b) :: objSet rest k v from by
        rw [objSet, if_neg ha]] at hp
      rcases List.mem_cons.mp hp with rfl | h2
      · exact Or.inl (List.mem_cons_self _ _)
      · rcases ih h2 with h3 | h3
        · exact Or.inl (List.mem_cons_of_mem _ h3)
        · exact Or.inr h3

theorem objGet_some_mem [DecidableEq κ] (m : List (κ × α)) (k : κ) (x : α)
    (h : objGet m k = some x) : (k, x) ∈ m := by
  induction m with
  | nil => cases h
  | cons q rest ih =>
    obtain ⟨a, b⟩ := q
    rw [objGet] at h
    by_cases ha : a = k
    · rw [if_pos ha] at h
      injection h with h2
      subst h2
      subst ha
      exact List.mem_cons_self _ _
    · rw [if_neg ha] at h
      exact List.mem_cons_of_mem _ (ih h)

theorem groupRespondents_entries (fd : Int → String) (rs : List SurveyAnswer) :
    ∀ p ∈ groupRespondents fd rs,
      ∃ r ∈ rs, p.2.email = r.email ∧ p.2.date = fd r.created_at := by
  rw [groupRespondents]
  suffices haux : ∀ (rows : List SurveyAnswer) (acc : List (String × RespondentRow)),
      (∀ r ∈ rows, r ∈ rs) →
      (∀ p ∈ acc, ∃ r ∈ rs, p.2.email = r.email ∧ p.2.date = fd r.created_at) →
      ∀ p ∈ rows.foldl
        (fun m r =>
          let m2 :=
            if (objGet m r.email).isSome then m
            else objSet m r.email
              { email := r.email, date := fd r.created_at, answers := [] }
          match objGet m2 r.email with
          | some resp =>
            objSet m2 r.email
              { resp with answers := objSet resp.answers r.question_id r.answer_text }
          | none => m2)
        acc,
      ∃ r ∈ rs, p.2.email = r.email ∧ p.2.date = fd r.created_at by
    exact haux rs [] (fun _ h => h) (by simp)
  intro rows
  induction rows with
  | nil =>
    intro acc _ hacc p hp
    exact hacc p hp
  | cons r rest ihr =>
    intro acc hsub hacc p hp
    rw [List.foldl_cons] at hp
    refine ihr _ (fun r' h' => hsub r' (List.mem_cons_of_mem r h')) ?_ p hp
    intro q hq
    have hr : r ∈ rs := hsub r (List.mem_cons_self r rest)
    have hm2 : ∀ q2 ∈ (if (objGet acc r.email).isSome then acc
        else objSet acc r.email
          { email := r.email, date := fd r.created_at, answers := [] }),
        ∃ r2 ∈ rs, q2.2.email = r2.email ∧ q2.2.date = fd r2.created_at := by
      intro q2 hq2
      by_cases hg : (objGet acc r.email).isSome
      · rw [if_pos hg] at hq2
        exact hacc q2 hq2
      · rw [if_neg hg] at hq2
        rcases objSet_mem_of acc r.email _ q2 hq2 with h2 | rfl
        · exact hacc q2 h2
        · exact ⟨r, hr, rfl, rfl⟩
    revert hq
    show q ∈ (match objGet (if (objGet acc r.email).isSome then acc
        else objSet acc r.email
          { email := r.email, date := fd r.created_at, answers := [] }) r.email with
      | some resp =>
        objSet (if (objGet acc r.email).isSome then acc
          else objSet acc r.email
            { email := r.email, date := fd r.created_at, answers := [] }) r.email
          { resp with answers := objSet resp.answers r.question_id r.answer_text }
      | none => (if (objGet acc r.email).isSome then acc
          else objSet acc r.email
            { email := r.email, date := fd r.created_at, answers := [] })) →
      ∃ r2 ∈ rs, q.2.email = r2.email ∧ q.2.date = fd r2.created_at
    cases hget : objGet (if (objGet acc r.email).isSome then acc
        else objSet acc r.email
          { email := r.email, date := fd r.created_at, answers := [] }) r.email with
    | none =>
      intro hq
      exact hm2 q hq
    | some resp =>
      intro hq
      rcases objSet_mem_of _ r.email _ q hq with h2 | rfl
      · exact hm2 q h2
      · obtain ⟨r2, hr2, he, hd⟩ := hm2 (r.email, resp) (objGet_some_mem _ _ _ hget)
        exact ⟨r2, hr2, he, hd⟩

theorem forall₂_map_map (P : β → γ → Prop) (f : α → β) (g : α → γ)
    (l : List α) (h : ∀ x ∈ l, P (f x) (g x)) :
    List.Forall₂ P (l.map f) (l.map g) := by
  induction l with
  | nil => exact List.Forall₂.nil
  | cons x xs ih =>
    exact List.Forall₂.cons (h x (List.mem_cons_self x xs))
      (ih (fun y hy => h y (List.mem_cons_of_mem x hy)))

theorem forall₂_quote_cells (l : List String) :
    List.Forall₂ csvCellRel (l.map csvQuote) l := by
  induction l with
  | nil => exact List.Forall₂.nil
  | cons x xs ih => exact List.Forall₂.cons (Or.inr rfl) ih

theorem jsJoin_two_ne_nil (x y : String) (ys : List String) :
    (jsJoin "," (x :: y :: ys)).toList ≠ [] := by
  rw [jsJoin_comma_toList]
  simp

theorem jsJoin_newline_length (lines : List String) :
    lines.length ≤ (jsJoin "\n" lines).toList.length + 1 := by
  induction lines with
  | nil => simp
  | cons x xs ih =>
    cases xs with
    | nil => simp
    | cons y ys =>
      rw [jsJoin_newline_toList]
      simp only [List.length_cons, List.length_append]
      simp only [List.length_cons] at ih
      omega

/-- C4 (amended): the CSV export writes the header and the raw
respondent/date cells unescaped (only answer cells are quote-wrapped with
doubled quotes), so the round trip holds when the question texts and the
respondent email/date strings contain no comma, double quote, or newline;
under that condition re-parsing with standard CSV quoting rules reproduces
the respondent/date/answer matrix exactly — including answer cells containing
commas and double quotes, which survive as single cells. -/
theorem C4_csv_round_trip (formatDate : Int → String) (survey : Survey)
    (responses : List SurveyAnswer)
    (hq : ∀ q ∈ survey.questions, csvPlainText q.question_text)
    (hr : ∀ r ∈ responses,
      csvPlainText r.email ∧ csvPlainText (formatDate r.created_at)) :
    csvParse (generateCSV formatDate survey responses).toList =
      (("Respondent ID" :: "Date" ::
          survey.questions.map (fun q => q.question_text)) ::
        (groupRespondents formatDate responses).map (fun p =>
          p.2.email :: p.2.date :: survey.questions.map (fun q =>
            (objGet p.2.answers q.id).getD ""))) := by
  have hgen : generateCSV formatDate survey responses =
      jsJoin "\n" (((("Respondent ID" :: "Date" ::
          survey.questions.map (fun q => q.question_text)) ::
        (groupRespondents formatDate responses).map (fun p =>
          p.2.email :: p.2.date :: survey.questions.map (fun q =>
            csvQuote ((objGet p.2.answers q.id).getD "")))).map (jsJoin ","))) := by
    rw [generateCSV, generateCSVRows]
    simp only [List.map_cons, List.map_map]
    rfl
  rw [hgen, csvParse]
  refine csvParseAux_rows _ _ ?_ _ (by simp) ?_
  · refine List.Forall₂.cons ⟨?_, jsJoin_two_ne_nil _ _ _⟩ ?_
    · refine List.forall₂_same.mpr ?_
      intro x hx
      rcases List.mem_cons.mp hx with rfl | hx2
      · exact Or.inl ⟨rfl, by decide⟩
      rcases List.mem_cons.mp hx2 with rfl | hx3
      · exact Or.inl ⟨rfl, by decide⟩
      · obtain ⟨q2, hq2, rfl⟩ := List.mem_map.mp hx3
        exact Or.inl ⟨rfl, hq q2 hq2⟩
    · refine forall₂_map_map _ _ _ _ ?_
      intro p hp
      obtain ⟨r2, hr2, he, hd⟩ := groupRespondents_entries formatDate responses p hp
      refine ⟨?_, jsJoin_two_ne_nil _ _ _⟩
      refine List.Forall₂.cons (Or.inl ⟨rfl, ?_⟩) ?_
      · rw [he]
        exact (hr r2 hr2).1
      refine List.Forall₂.cons (Or.inl ⟨rfl, ?_⟩) ?_
      · rw [hd]
        exact (hr r2 hr2).2
      · exact forall₂_map_map _ _ _ _ (fun q2 _ => Or.inr rfl)
  · have h := jsJoin_newline_length
      (((("Respondent ID" :: "Date" ::
          survey.questions.map (fun q => q.question_text)) ::
        (groupRespondents formatDate responses).map (fun p =>
          p.2.email :: p.2.date :: survey.questions.map (fun q =>
            csvQuote ((objGet p.2.answers q.id).getD ""))))).map (jsJoin ","))
    rw [List.length_map] at h
    exact h

/-- C4 counterexample: the header row is joined raw, so a question text
containing a comma (`"A, B"`) splits into two cells on re-parse: the
generated CSV does not reproduce the original respondent/date/answer matrix
(the header comes back as four cells, not three). -/
theorem C4_comma_question_breaks_round_trip :
    csvParse (generateCSV (fun _ => "2025-01-01")
        { id := "s1", title := "T",
          questions := [{ id := "q1", question_text := "A, B",
                          question_type := QuestionType.text,
                          options := [], required := false }] }
        [{ question_id := "q1", survey_id := "s1", email := "a@x.com",
           answer_text := "5", answer_value := JsValue.vStr "5",
           created_at := 0 }]).toList ≠
      [["Respondent ID", "Date", "A, B"],
       ["a@x.com", "2025-01-01", "5"]] ∧
    csvParse (generateCSV (fun _ => "2025-01-01")
        { id := "s1", title := "T",
          questions := [{ id := "q1", question_text := "A, B",
                          question_type := QuestionType.text,
                          options := [], required := false }] }
        [{ question_id := "q1", survey_id := "s1", email := "a@x.com",
           answer_text := "5", answer_value := JsValue.vStr "5",
           created_at := 0 }]).toList =
      [["Respondent ID", "Date", "A", " B"],
       ["a@x.com", "2025-01-01", "5"]] := by
  refine ⟨by decide, by decide⟩

/-- Witness for C4 (amended): with plain question texts, emails and dates,
an answer containing both a comma and embedded double quotes survives the
round trip as a single cell. -/
theorem C4_csv_round_trip_witness :
    csvParse (generateCSV (fun _ => "Jan 1 2025")
        { id := "s1", title := "T",
          questions := [{ id := "q1", question_text := "Q1",
                          question_type := QuestionType.text,
                          options := [], required := false }] }
        [{ question_id := "q1", survey_id := "s1", email := "a@x.com",
           answer_text := "He said \"hi\", then left",
           answer_value := JsValue.vStr "He said \"hi\", then left",
           created_at := 0 }]).toList =
      [["Respondent ID", "Date", "Q1"],
       ["a@x.com", "Jan 1 2025", "He said \"hi\", then left"]] := by
  have h := C4_csv_round_trip (fun _ => "Jan 1 2025")
    { id := "s1", title := "T",
      questions := [{ id := "q1", question_text := "Q1",
                      question_type := QuestionType.text,
                      options := [], required := false }] }
    [{ question_id := "q1", survey_id := "s1", email := "a@x.com",
       answer_text := "He said \"hi\", then left",
       answer_value := JsValue.vStr "He said \"hi\", then left",
       created_at := 0 }]
    (by decide) (by decide)
  rw [h]
  decide

end CustomerPortal
